import Mathlib

/-!
Verification development for the chat-server repository (Rust, axum/tokio).

The subject is the per-room concurrency engine of `src/handler.rs`:

* `handle_message` — the room actor's per-message state transition
  (joins with displacement, leaves, chat with rate limiting, kick/ban,
  mute, custom events);
* `room_message_loop` — the priority-multiplexed scheduler built from
  `tokio::select!` over four inbound ports, with a 200-message slice
  loop in the `else` arm;
* the join-notify debounce timer spawned on `UserJoined`;
* `send_callback_with_retry` of `src/callback.rs`.

Modelling conventions:

* `HashMap` fields become association lists with the same insert /
  remove / lookup semantics (`alInsert` replaces an existing key,
  `alErase` removes it); `HashSet` fields become lists used through
  membership.
* `Uuid` values become `Nat`; instants of the monotonic clock become
  `Nat`; `chrono` second timestamps (`i64`) become `Int`.
* `u32`/`u64` counters (`current_users`, `peak_users`, `total_joins`)
  become `Nat`; `saturating_sub(1)` is `Nat` truncated subtraction,
  which has exactly the saturating semantics.
* Channel sends performed by the actor become elements of an explicit
  `Output` list; the outbound channel of a connection is addressed by
  that connection's id.  A tokio mpsc receiver becomes a `Chan`: a
  queue of pending messages plus a flag recording whether all senders
  were dropped.
* `state.rooms.lock().await.get(&room_id)` succeeding is the Boolean
  field `registered` of the handler state (the registry either still
  holds this room's `RoomState` or does not).
* The handler calls `chrono::Utc::now()` twice in the `SendMessage`
  arm; the two readings are the parameters `now` and `now2`.
* `msg.sender.expect(..)` in the `UserJoined` arm panics when the
  message carries no sender; `handle_message` therefore returns
  `Option`, with `none` for that panic.
* `WsMessage::Ping`/`Pong` are matched by `handler.rs` and listed in
  the wire-format section of the specification although `models.rs`
  omits them from the enum; they are included here as the handler uses
  them.  Likewise `user_message_interval_secs` is read from the config
  by `handler.rs` but not declared in `config.rs`; it is passed here
  as an explicit parameter.
-/

/-- Association-list lookup, mirroring `HashMap::get`. -/
def alLookup [DecidableEq α] (l : List (α × β)) (k : α) : Option β :=
  match l with
  | [] => none
  | (k2, v) :: rest => if k = k2 then some v else alLookup rest k

/-- Association-list removal, mirroring `HashMap::remove`. -/
def alErase [DecidableEq α] (l : List (α × β)) (k : α) : List (α × β) :=
  match l with
  | [] => []
  | (k2, v) :: rest => if k = k2 then alErase rest k else (k2, v) :: alErase rest k

/-- Association-list insertion, mirroring `HashMap::insert` (replaces
an existing binding of the key). -/
def alInsert [DecidableEq α] (l : List (α × β)) (k : α) (v : β) : List (α × β) :=
  (k, v) :: alErase l k

/-- `HashSet::insert` on a list-modelled set. -/
def insertSet (l : List String) (x : String) : List String :=
  if x ∈ l then l else x :: l

/-- `HashSet::remove` on a list-modelled set. -/
def removeSet (l : List String) (x : String) : List String :=
  l.filter (fun y => decide (y ≠ x))

/-- The wire-frame enum `WsMessage` of `src/models.rs` (JSON payload of
`CustomEvent` abstracted to a string). -/
inductive WsMessage
  | SendMessage (content : String)
  | KickUser (user_id : String)
  | MuteUser (user_id : String)
  | Message (from_user : String) (nickname : String) (content : String) (is_admin : Bool)
  | UserJoined (user_id : String) (nickname : String)
  | UserLeft (user_id : String) (nickname : String)
  | YouAreKicked
  | YouAreMuted
  | UserMuted (user_id : String)
  | Error (message : String)
  | System (message : String)
  | WelcomeInfo (user_id : String) (nickname : String) (is_muted : Bool)
  | RoomStats (current_users : Nat) (peak_users : Nat)
  | CustomEvent (event_type : String) (payload : String)
  | Ping (timestamp : Int)
  | Pong (timestamp : Int)
deriving DecidableEq

/-- `InternalMessage` of `src/models.rs`; `hasSender` records whether the
`sender : Option<mpsc::Sender<WsMessage>>` field is `Some` (the attached
channel itself is addressed by `conn_id`). -/
structure InternalMessage where
  conn_id : Nat
  user_id : String
  nickname : String
  room_id : Nat
  content : WsMessage
  hasSender : Bool
deriving DecidableEq

/-- `ControlMessage` of `src/models.rs`. -/
inductive ControlMessage
  | ResetAdmins (new_admins : List String)
  | UnbanUser (user_id : String)
deriving DecidableEq

/-- `DbWriteCommand` of `src/models.rs` (`join_time : Instant` becomes a
`Nat` tick of the monotonic clock). -/
inductive DbWriteCommand
  | UserJoined (user_id : String) (nickname : String) (room_id : Nat)
  | UserLeft (user_id : String) (nickname : String) (room_id : Nat) (join_time : Nat)
  | ChatMessage (user_id : String) (nickname : String) (room_id : Nat) (content : String)
  | BanUser (user_id : String) (room_id : Nat)
  | UnbanUser (user_id : String) (room_id : Nat)
deriving DecidableEq

/-- `RoomStats` of `src/models.rs`. -/
structure RoomStats where
  current_users : Nat
  peak_users : Nat
  total_joins : Nat
deriving DecidableEq

/-- `ConnectionInfo` of `src/handler.rs` (its `sender` channel is
addressed by the connection id under which the info is stored). -/
structure ConnectionInfo where
  join_time : Nat
  is_admin : Bool
  nickname : String
deriving DecidableEq

/-- Effects the actor performs on its environment: a send on some
connection's outbound channel, a command to the persistence writer, or
spawning the join-notify one-shot timer task. -/
inductive Output
  | send (dest : Nat) (m : WsMessage)
  | db (c : DbWriteCommand)
  | spawnTimer
deriving DecidableEq

/-- The state owned by (or reachable from) the room actor: the local
variables of `room_message_loop` plus the fields of the registry-held
`RoomState` that `handle_message` and the timer task mutate
(`user_last_message_time`, the two debounce flags), and `registered`,
which is true while `state.rooms` still maps this room's id to its
`RoomState`. -/
structure HandlerState where
  connections : List (Nat × ConnectionInfo)
  user_id_to_conn_id : List (String × Nat)
  muted_users : List String
  banned_users : List String
  admin_users : List String
  stats : RoomStats
  registered : Bool
  user_last_message_time : List (String × Int)
  pending_join_notify : Bool
  join_notify_timer_active : Bool
deriving DecidableEq

/-- The error text sent to a banned user attempting to join
(`handler.rs` line 264). -/
def bannedJoinError : String := "你已被踢出该房间，无法再次加入"

/-- The rate-limit error text, `format!("发送过于频繁，请{}秒后再试", ..)`
with the remaining wait in seconds (`handler.rs` line 342). -/
def rateLimitError (remaining : Int) : String :=
  "发送过于频繁，请" ++ toString remaining ++ "秒后再试"

/-- `broadcast` of `src/handler.rs`: push `m` to every connection's
outbound channel except an optional excluded connection (iteration
order of the `HashMap` is fixed here as list order; the source leaves
it unspecified). -/
def broadcast (connections : List (Nat × ConnectionInfo)) (m : WsMessage)
    (exclude_conn_id : Option Nat) : List Output :=
  connections.filterMap (fun p => if some p.1 = exclude_conn_id then none
                                  else some (Output.send p.1 m))

/-- The `WsMessage::UserJoined` arm of `handle_message`
(`handler.rs` lines 260-319): ban check, displacement of an existing
session of the same user id, `WelcomeInfo` send (whose success is the
oracle `welcomeOk`), registration, stats update, persistence command,
and the join-notify debounce flags with the idempotent timer spawn.
`none` models the `expect` panic on a message without a sender. -/
def handle_user_joined (msg : InternalMessage) (welcomeOk : Bool) (joinInstant : Nat)
    (st : HandlerState) : Option (HandlerState × List Output) :=
  if msg.hasSender = false then none
  else if msg.user_id ∈ st.banned_users then
    some (st, [Output.send msg.conn_id (WsMessage.Error bannedJoinError)])
  else
    let step1 : HandlerState × List Output :=
      match alLookup st.user_id_to_conn_id msg.user_id with
      | some old_conn_id =>
        let st1 := { st with user_id_to_conn_id := alErase st.user_id_to_conn_id msg.user_id }
        match alLookup st1.connections old_conn_id with
        | some _ =>
          ({ st1 with
               connections := alErase st1.connections old_conn_id,
               stats := { st1.stats with
                            current_users := st1.stats.current_users - 1 } },
           [Output.send old_conn_id WsMessage.YouAreKicked])
        | none => (st1, [])
      | none => (st, [])
    let st1 := step1.1
    let is_admin := decide (msg.user_id ∈ st1.admin_users)
    let is_muted := decide (msg.user_id ∈ st1.muted_users)
    let outs2 := step1.2 ++
      [Output.send msg.conn_id (WsMessage.WelcomeInfo msg.user_id msg.nickname is_muted)]
    if welcomeOk = false then some (st1, outs2)
    else
      let st2 := { st1 with
        connections := alInsert st1.connections msg.conn_id
          { join_time := joinInstant, is_admin := is_admin, nickname := msg.nickname },
        user_id_to_conn_id := alInsert st1.user_id_to_conn_id msg.user_id msg.conn_id }
      let newCurrent := st2.stats.current_users + 1
      let newPeak := if newCurrent > st2.stats.peak_users then newCurrent
                     else st2.stats.peak_users
      let st3 := { st2 with stats :=
        { current_users := newCurrent, peak_users := newPeak,
          total_joins := st2.stats.total_joins + 1 } }
      let outs3 := outs2 ++
        [Output.db (DbWriteCommand.UserJoined msg.user_id msg.nickname msg.room_id)]
      let spawnOuts : List Output :=
        if st3.join_notify_timer_active then [] else [Output.spawnTimer]
      some ({ st3 with pending_join_notify := true, join_notify_timer_active := true },
            outs3 ++ spawnOuts)

/-- The `WsMessage::UserLeft` arm of `handle_message`
(`handler.rs` lines 320-326). -/
def handle_user_left (msg : InternalMessage) (st : HandlerState) :
    HandlerState × List Output :=
  match alLookup st.connections msg.conn_id with
  | some conn_info =>
    ({ st with
         connections := alErase st.connections msg.conn_id,
         user_id_to_conn_id := alErase st.user_id_to_conn_id msg.user_id,
         stats := { st.stats with current_users := st.stats.current_users - 1 } },
     [Output.db (DbWriteCommand.UserLeft msg.user_id msg.nickname msg.room_id
                   conn_info.join_time)])
  | none => (st, [])

/-- The `WsMessage::SendMessage` arm of `handle_message`
(`handler.rs` lines 327-356): mute check, per-user rate limit for
non-admins against `user_message_interval_secs`, update of the last
message time (second clock reading `now2`), persistence command and
broadcast to every connection (no exclusion). -/
def handle_send_message (msg : InternalMessage) (content : String) (now now2 : Int)
    (user_message_interval_secs : Int) (st : HandlerState) :
    HandlerState × List Output :=
  match alLookup st.connections msg.conn_id with
  | none => (st, [])
  | some conn_info =>
    if msg.user_id ∈ st.muted_users then
      (st, [Output.send msg.conn_id WsMessage.YouAreMuted])
    else
      let is_admin := conn_info.is_admin
      let last := (alLookup st.user_last_message_time msg.user_id).getD 0
      if is_admin = false ∧ now - last < user_message_interval_secs then
        (st, [Output.send msg.conn_id
               (WsMessage.Error (rateLimitError (user_message_interval_secs - (now - last))))])
      else
        let st1 := { st with
          user_last_message_time := alInsert st.user_last_message_time msg.user_id now2 }
        (st1,
         Output.db (DbWriteCommand.ChatMessage msg.user_id msg.nickname msg.room_id content)
           :: broadcast st1.connections
                (WsMessage.Message msg.user_id msg.nickname content is_admin) none)

/-- The `WsMessage::KickUser` arm of `handle_message`
(`handler.rs` lines 357-370): admin check, ban-set insertion,
persistence command, then eviction of the target's live connection. -/
def handle_kick_user (msg : InternalMessage) (target : String) (st : HandlerState) :
    HandlerState × List Output :=
  match alLookup st.connections msg.conn_id with
  | none => (st, [])
  | some conn_info =>
    if conn_info.is_admin = false then (st, [])
    else
      let st1 := { st with banned_users := insertSet st.banned_users target }
      let outs1 := [Output.db (DbWriteCommand.BanUser target msg.room_id)]
      match alLookup st1.user_id_to_conn_id target with
      | some target_conn_id =>
        let st2 := { st1 with
          user_id_to_conn_id := alErase st1.user_id_to_conn_id target }
        match alLookup st2.connections target_conn_id with
        | some _ =>
          ({ st2 with
               connections := alErase st2.connections target_conn_id,
               stats := { st2.stats with
                            current_users := st2.stats.current_users - 1 } },
           outs1 ++ [Output.send target_conn_id WsMessage.YouAreKicked])
        | none => (st2, outs1)
      | none => (st1, outs1)

/-- The `WsMessage::MuteUser` arm of `handle_message`
(`handler.rs` lines 371-375). -/
def handle_mute_user (msg : InternalMessage) (target : String) (st : HandlerState) :
    HandlerState × List Output :=
  match alLookup st.connections msg.conn_id with
  | none => (st, [])
  | some conn_info =>
    if conn_info.is_admin = false then (st, [])
    else ({ st with muted_users := insertSet st.muted_users target }, [])

/-- The `WsMessage::CustomEvent` arm of `handle_message`
(`handler.rs` lines 376-380). -/
def handle_custom_event (msg : InternalMessage) (event_type payload : String)
    (st : HandlerState) : HandlerState × List Output :=
  match alLookup st.connections msg.conn_id with
  | none => (st, [])
  | some conn_info =>
    if conn_info.is_admin = false then (st, [])
    else (st, broadcast st.connections (WsMessage.CustomEvent event_type payload) none)

/-- `handle_message` of `src/handler.rs` (lines 243-383).  The initial
`db_writer_tx` lookup failing (room no longer registered) is the early
`return`; the remaining arms dispatch on the message content, and the
catch-all `_ => {}` covers server-to-client-only frames. -/
def handle_message (msg : InternalMessage) (welcomeOk : Bool) (now now2 : Int)
    (joinInstant : Nat) (user_message_interval_secs : Int) (st : HandlerState) :
    Option (HandlerState × List Output) :=
  if st.registered = false then some (st, [])
  else
    match msg.content with
    | WsMessage.UserJoined _ _ => handle_user_joined msg welcomeOk joinInstant st
    | WsMessage.UserLeft _ _ => some (handle_user_left msg st)
    | WsMessage.SendMessage content =>
        some (handle_send_message msg content now now2 user_message_interval_secs st)
    | WsMessage.KickUser target => some (handle_kick_user msg target st)
    | WsMessage.MuteUser target => some (handle_mute_user msg target st)
    | WsMessage.CustomEvent event_type payload =>
        some (handle_custom_event msg event_type payload st)
    | _ => some (st, [])

/-- The two control-message arms of the `tokio::select!` in
`room_message_loop` (`handler.rs` lines 169-181): `ResetAdmins`
replaces the admin set, `UnbanUser` removes from the ban set. -/
def handle_control (c : ControlMessage) (st : HandlerState) : HandlerState :=
  match c with
  | ControlMessage.ResetAdmins new_admins => { st with admin_users := new_admins }
  | ControlMessage.UnbanUser u => { st with banned_users := removeSet st.banned_users u }

/-- The body of the one-shot task spawned on `UserJoined`
(`handler.rs` lines 300-314): after the 1-second sleep it re-looks the
room up in the registry; if present and the pending flag is set it
only clears the pending flag (the source comment says the broadcast is
left to the main loop), and it always clears the timer-active flag.
It performs no sends. -/
def join_notify_timer_fire (st : HandlerState) : HandlerState × List Output :=
  if st.registered then
    let st1 := if st.pending_join_notify then { st with pending_join_notify := false }
               else st
    ({ st1 with join_notify_timer_active := false }, [])
  else (st, [])

/-- The four inbound ports of the room actor. -/
inductive Port
  | high
  | normal
  | ctrl
  | statsq
deriving DecidableEq

/-- The forwarding decision of the reader loop in `handle_socket`
(`handler.rs` lines 118-134): a `Ping` is answered locally with a
`Pong` and never enqueued; every other inbound frame is forwarded as
an `InternalMessage` with `sender = None` on `room_tx`, which is the
clone of `normal_prio_tx` taken at line 86 — the handler holds no
other port. -/
def handle_socket_forward (conn_id : Nat) (user_id nickname : String) (room_id : Nat)
    (f : WsMessage) : Option (Port × InternalMessage) :=
  match f with
  | WsMessage.Ping _ => none
  | m => some (Port.normal,
      { conn_id := conn_id, user_id := user_id, nickname := nickname,
        room_id := room_id, content := m, hasSender := false })

/-- A tokio mpsc receiver as seen by the actor: the queue of pending
messages and whether every sender has been dropped.  `recv()` yields
pending messages first and resolves to `None` only once the channel is
closed and drained. -/
structure Chan (α : Type) where
  queue : List α
  closedFlag : Bool
deriving DecidableEq

/-- Result of `try_recv()`. -/
inductive TryRecvResult (α : Type)
  | ok (a : α)
  | empty
  | disconnected
deriving DecidableEq

/-- `try_recv()`: a pending message if any, otherwise `Disconnected`
when all senders are gone, otherwise `Empty`. -/
def tryRecv (c : Chan α) : TryRecvResult α × Chan α :=
  match c.queue with
  | m :: rest => (TryRecvResult.ok m, { c with queue := rest })
  | [] => if c.closedFlag then (TryRecvResult.disconnected, c) else (TryRecvResult.empty, c)

/-- A `tokio::select!` branch `Some(x) = rx.recv()` is disabled exactly
when its channel is closed and drained. -/
def chanDisabled (c : Chan α) : Bool :=
  c.queue.isEmpty && c.closedFlag

/-- `LOW_PRIO_SLICE` of `handler.rs` line 160. -/
def LOW_PRIO_SLICE : Nat := 200

/-- The per-message nondeterminism of the environment, fixed per
handled message: success of the `WelcomeInfo` send, the two wall-clock
readings, and the monotonic instant taken at registration. -/
structure HandleOracle where
  welcomeOk : Bool
  now : Int
  now2 : Int
  joinInstant : Nat
deriving DecidableEq

/-- `handle_message` as invoked by the loop.  The `none` case is the
`expect` panic on a `UserJoined` without sender; no producer in the
repository sends such a message (`handle_socket` attaches the sender
to the registration message and forwards client frames, whose crafted
`UserJoined` would panic the actor — outside the scope of the claims),
so it is modelled as a no-op here. -/
def handleOr (m : InternalMessage) (o : HandleOracle) (interval : Int)
    (st : HandlerState) : HandlerState × List Output :=
  (handle_message m o.welcomeOk o.now o.now2 o.joinInstant interval st).getD (st, [])

/-- Result of one run of the inner slice loop. -/
structure SliceResult where
  high : Chan InternalMessage
  normal : Chan InternalMessage
  hs : HandlerState
  count : Nat
  outs : List Output
deriving DecidableEq

/-- The inner slice loop of the `else` arm (`handler.rs` lines
199-223), with the normal-priority queue as the recursion argument:
each iteration first `try_recv`s the high-priority port (an `Ok`
handles that message and breaks back to the select, `Disconnected`
breaks), then `try_recv`s the normal port (`Empty` and `Disconnected`
both break; turning those two cases up requires the queue to be empty,
hence the single `[]` case), handling one message and yielding once
`count` reaches `LOW_PRIO_SLICE`.  The high-priority channel is left
untouched by the `Empty` case, so it is a plain parameter. -/
def sliceGo (orc : Nat → HandleOracle) (interval : Int) (high : Chan InternalMessage)
    (normalClosed : Bool) : Nat → Nat → HandlerState → List InternalMessage → SliceResult
  | k, count, st, nq =>
    match tryRecv high with
    | (TryRecvResult.ok m, high1) =>
      let r := handleOr m (orc k) interval st
      { high := high1, normal := { queue := nq, closedFlag := normalClosed },
        hs := r.1, count := count, outs := r.2 }
    | (TryRecvResult.disconnected, _) =>
      { high := high, normal := { queue := nq, closedFlag := normalClosed },
        hs := st, count := count, outs := [] }
    | (TryRecvResult.empty, _) =>
      match nq with
      | [] =>
        { high := high, normal := { queue := [], closedFlag := normalClosed },
          hs := st, count := count, outs := [] }
      | m :: rest =>
        let r := handleOr m (orc k) interval st
        let count1 := count + 1
        if count1 ≥ LOW_PRIO_SLICE then
          { high := high, normal := { queue := rest, closedFlag := normalClosed },
            hs := r.1, count := count1, outs := r.2 }
        else
          let res := sliceGo orc interval high normalClosed (k + 1) count1 r.1 rest
          { high := res.high, normal := res.normal, hs := res.hs,
            count := res.count, outs := r.2 ++ res.outs }

/-- The slice loop started from `count = 0` as the `else` arm does. -/
def sliceLoop (orc : Nat → HandleOracle) (interval : Int)
    (high normal : Chan InternalMessage) (st : HandlerState) : SliceResult :=
  sliceGo orc interval high normal.closedFlag 0 0 st normal.queue

/-- State of one iteration of `room_message_loop`: the four inbound
ports, the handler state, and whether the loop has exited. -/
structure LoopState where
  high : Chan InternalMessage
  normal : Chan InternalMessage
  ctrl : Chan ControlMessage
  statsq : Chan Unit
  hs : HandlerState
  finished : Bool
deriving DecidableEq

/-- The `else` arm of the `tokio::select!` fires exactly when all three
listed receive branches are disabled (tokio semantics: a pending
`recv()` keeps the select waiting; only a `recv()` that resolved to
`None` — closed and drained — disables its branch). -/
def elseEnabled (s : LoopState) : Bool :=
  chanDisabled s.high && chanDisabled s.ctrl && chanDisabled s.statsq

/-- The `else` arm body (`handler.rs` lines 197-236): run the slice
loop, then broadcast `RoomStats` and clear the pending flag if the
room is still registered with the flag set, then — if the connection
map is empty — broadcast `RoomStats` once more and exit the loop. -/
def elseBody (orc : Nat → HandleOracle) (interval : Int) (s : LoopState) :
    LoopState × List Output :=
  let r := sliceLoop orc interval s.high s.normal s.hs
  let st1 := r.hs
  let pendingHit := st1.registered && st1.pending_join_notify
  let pendingOuts : List Output :=
    if pendingHit then
      broadcast st1.connections
        (WsMessage.RoomStats st1.stats.current_users st1.stats.peak_users) none
    else []
  let st2 := if pendingHit then { st1 with pending_join_notify := false } else st1
  if st2.connections.isEmpty then
    ({ s with high := r.high, normal := r.normal, hs := st2, finished := true },
     r.outs ++ pendingOuts ++
       broadcast st2.connections
         (WsMessage.RoomStats st2.stats.current_users st2.stats.peak_users) none)
  else
    ({ s with high := r.high, normal := r.normal, hs := st2 }, r.outs ++ pendingOuts)

/-- One transition of the room actor's world: the four select branches
of `room_message_loop` (the three receive arms and the `else` arm),
the spawned join-notify timer firing, and environment moves — another
task pushing onto an open channel, a channel closing (its senders all
dropped), or the management surface removing the room from the
registry.  The stats arm builds a `RoomDetailsResponse` from the
current state and replies on the query's one-shot channel, mutating
nothing. -/
inductive Step : LoopState → LoopState → Prop
  | highRecv (s : LoopState) (m : InternalMessage) (rest : List InternalMessage)
      (o : HandleOracle) (interval : Int) :
      s.finished = false → s.high.queue = m :: rest →
      Step s { s with high := { s.high with queue := rest },
                      hs := (handleOr m o interval s.hs).1 }
  | ctrlRecv (s : LoopState) (c : ControlMessage) (rest : List ControlMessage) :
      s.finished = false → s.ctrl.queue = c :: rest →
      Step s { s with ctrl := { s.ctrl with queue := rest },
                      hs := handle_control c s.hs }
  | statsRecv (s : LoopState) (rest : List Unit) :
      s.finished = false → s.statsq.queue = () :: rest →
      Step s { s with statsq := { s.statsq with queue := rest } }
  | elseArm (s : LoopState) (orc : Nat → HandleOracle) (interval : Int) :
      s.finished = false → elseEnabled s = true →
      Step s (elseBody orc interval s).1
  | timerFire (s : LoopState) :
      Step s { s with hs := (join_notify_timer_fire s.hs).1 }
  | envHigh (s : LoopState) (m : InternalMessage) :
      s.high.closedFlag = false →
      Step s { s with high := { s.high with queue := s.high.queue ++ [m] } }
  | envNormal (s : LoopState) (m : InternalMessage) :
      s.normal.closedFlag = false →
      Step s { s with normal := { s.normal with queue := s.normal.queue ++ [m] } }
  | envCtrl (s : LoopState) (c : ControlMessage) :
      s.ctrl.closedFlag = false →
      Step s { s with ctrl := { s.ctrl with queue := s.ctrl.queue ++ [c] } }
  | envStats (s : LoopState) :
      s.statsq.closedFlag = false →
      Step s { s with statsq := { s.statsq with queue := s.statsq.queue ++ [()] } }
  | envCloseHigh (s : LoopState) :
      Step s { s with high := { s.high with closedFlag := true } }
  | envCloseNormal (s : LoopState) :
      Step s { s with normal := { s.normal with closedFlag := true } }
  | envCloseCtrl (s : LoopState) :
      Step s { s with ctrl := { s.ctrl with closedFlag := true } }
  | envCloseStats (s : LoopState) :
      Step s { s with statsq := { s.statsq with closedFlag := true } }
  | envUnregister (s : LoopState) :
      Step s { s with hs := { s.hs with registered := false } }

/-- Outcome of one HTTP POST attempt in the callback dispatcher: a
response with its `is_success()` (2xx) status, or a transport error. -/
inductive HttpAttempt
  | response (is2xx : Bool)
  | transportFailure
deriving DecidableEq

/-- Whether an attempt outcome is the success case of
`send_callback_with_retry` (`Ok(response)` with 2xx status). -/
def attemptSuccess : HttpAttempt → Bool
  | HttpAttempt.response true => true
  | _ => false

/-- Trace events of the retry loop: an HTTP POST, or a fixed-delay
sleep between attempts. -/
inductive CbEvent
  | post
  | sleepDelay (secs : Nat)
deriving DecidableEq

/-- The `while retries <= max_retries` body of
`send_callback_with_retry` (`callback.rs` lines 119-146), with the
outcome of the `i`-th POST given by `attempts i`.  Returns whether the
event was delivered and the trace of POSTs and sleeps.  The loop
counter is `retries`; after a failure it is incremented and a sleep of
`retry_delay` is taken only if another attempt will follow. -/
def send_callback_go (attempts : Nat → HttpAttempt) (max_retries retry_delay : Nat) :
    Nat → Nat → Bool × List CbEvent
  | fuel, retries =>
    match fuel with
    | 0 => (false, [])
    | fuel1 + 1 =>
      if retries ≤ max_retries then
        if attemptSuccess (attempts retries) then (true, [CbEvent.post])
        else
          let retries1 := retries + 1
          if retries1 ≤ max_retries then
            let r := send_callback_go attempts max_retries retry_delay fuel1 retries1
            (r.1, CbEvent.post :: CbEvent.sleepDelay retry_delay :: r.2)
          else (false, [CbEvent.post])
      else (false, [])

/-- `send_callback_with_retry`: the loop entered with `retries = 0`;
`max_retries + 1` fuel covers every reachable iteration. -/
def send_callback_with_retry (attempts : Nat → HttpAttempt)
    (max_retries retry_delay : Nat) : Bool × List CbEvent :=
  send_callback_go attempts max_retries retry_delay (max_retries + 1) 0

/-- Number of POSTs in a callback trace. -/
def countPosts (l : List CbEvent) : Nat :=
  (l.filter (fun e => decide (e = CbEvent.post))).length

/-- Number of sleeps in a callback trace. -/
def countSleeps (l : List CbEvent) : Nat :=
  (l.filter (fun e => decide (e ≠ CbEvent.post))).length

section AlistLemmas

variable {α : Type} {β : Type} [DecidableEq α]

theorem alLookup_eq_none_iff (l : List (α × β)) (k : α) :
    alLookup l k = none ↔ k ∉ l.map Prod.fst := by
  induction l with
  | nil => simp [alLookup]
  | cons p rest ih =>
    obtain ⟨k2, v⟩ := p
    by_cases h : k = k2 <;> simp [alLookup, h, ih]

theorem alLookup_isSome_iff (l : List (α × β)) (k : α) :
    (alLookup l k).isSome = true ↔ k ∈ l.map Prod.fst := by
  induction l with
  | nil => simp [alLookup]
  | cons p rest ih =>
    obtain ⟨k2, v⟩ := p
    by_cases h : k = k2 <;> simp [alLookup, h, ih]

theorem alLookup_some_mem_keys {l : List (α × β)} {k : α} {v : β}
    (h : alLookup l k = some v) : k ∈ l.map Prod.fst := by
  have := (alLookup_isSome_iff l k).mp (by simp [h])
  exact this


theorem mem_keys_alErase {l : List (α × β)} {k a : α} :
    a ∈ (alErase l k).map Prod.fst ↔ a ∈ l.map Prod.fst ∧ a ≠ k := by
  induction l with
  | nil => simp [alErase]
  | cons p rest ih =>
    obtain ⟨k2, v⟩ := p
    by_cases h : k = k2
    · subst h
      simp [alErase, ih]
      tauto
    · simp [alErase, h, ih]
      constructor
      · rintro (h1 | ⟨h1, h2⟩)
        · subst h1; exact ⟨Or.inl rfl, fun hk => h hk.symm⟩
        · exact ⟨Or.inr h1, h2⟩
      · rintro ⟨h1 | h1, h2⟩
        · exact Or.inl h1
        · exact Or.inr ⟨h1, h2⟩

theorem alLookup_alErase (l : List (α × β)) (k k2 : α) :
    alLookup (alErase l k) k2 = if k2 = k then none else alLookup l k2 := by
  induction l with
  | nil => simp [alErase, alLookup]
  | cons p rest ih =>
    obtain ⟨ka, v⟩ := p
    by_cases h : k = ka
    · subst h
      have he : alErase ((k, v) :: rest) k = alErase rest k := by simp [alErase]
      rw [he, ih]
      by_cases h2 : k2 = k
      · simp [h2]
      · simp [alLookup, h2]
    · by_cases h2 : k2 = ka
      · subst h2
        simp [alErase, alLookup, Ne.symm h, fun hh : k = k2 => h hh]
      · simp [alErase, alLookup, fun hh : k = ka => h hh, h2, ih]

theorem alLookup_alInsert (l : List (α × β)) (k k2 : α) (v : β) :
    alLookup (alInsert l k v) k2 = if k2 = k then some v else alLookup l k2 := by
  by_cases h : k2 = k <;> simp [alInsert, alLookup, h, alLookup_alErase]

theorem alErase_of_not_mem {l : List (α × β)} {k : α}
    (h : k ∉ l.map Prod.fst) : alErase l k = l := by
  induction l with
  | nil => rfl
  | cons p rest ih =>
    obtain ⟨k2, v⟩ := p
    simp only [List.map_cons, List.mem_cons] at h
    push_neg at h
    simp [alErase, h.1, ih h.2]

theorem nodup_keys_alErase {l : List (α × β)} (k : α)
    (h : (l.map Prod.fst).Nodup) : ((alErase l k).map Prod.fst).Nodup := by
  induction l with
  | nil => simp [alErase]
  | cons p rest ih =>
    obtain ⟨k2, v⟩ := p
    simp only [List.map_cons, List.nodup_cons] at h
    by_cases hk : k = k2
    · subst hk
      simp [alErase, ih h.2]
    · simp only [alErase, if_neg hk, List.map_cons, List.nodup_cons]
      refine ⟨fun hmem => ?_, ih h.2⟩
      exact h.1 (mem_keys_alErase.mp hmem).1

theorem nodup_keys_alInsert {l : List (α × β)} (k : α) (v : β)
    (h : (l.map Prod.fst).Nodup) : ((alInsert l k v).map Prod.fst).Nodup := by
  simp only [alInsert, List.map_cons, List.nodup_cons]
  exact ⟨fun hmem => (mem_keys_alErase.mp hmem).2 rfl, nodup_keys_alErase k h⟩

theorem length_alErase_of_lookup {l : List (α × β)} {k : α} {v : β}
    (hnd : (l.map Prod.fst).Nodup) (h : alLookup l k = some v) :
    (alErase l k).length + 1 = l.length := by
  induction l with
  | nil => simp [alLookup] at h
  | cons p rest ih =>
    obtain ⟨k2, w⟩ := p
    simp only [List.map_cons, List.nodup_cons] at hnd
    by_cases hk : k = k2
    · subst hk
      have : alErase rest k = rest := alErase_of_not_mem hnd.1
      simp [alErase, this]
    · simp only [alLookup, if_neg hk] at h
      simp [alErase, hk, ih hnd.2 h]

theorem length_alInsert_of_not_mem {l : List (α × β)} {k : α} (v : β)
    (h : k ∉ l.map Prod.fst) : (alInsert l k v).length = l.length + 1 := by
  simp [alInsert, alErase_of_not_mem h]

theorem mem_keys_alInsert {l : List (α × β)} {k a : α} {v : β} :
    a ∈ (alInsert l k v).map Prod.fst ↔ a = k ∨ (a ∈ l.map Prod.fst ∧ a ≠ k) := by
  simp only [alInsert, List.map_cons, List.mem_cons, mem_keys_alErase]

end AlistLemmas

/-- A pairing helper: in a list whose first components are distinct,
a key determines its partner. -/
theorem nodup_keys_pair_eq {l : List (Nat × String)} (h : (l.map Prod.fst).Nodup)
    {c : Nat} {u u2 : String} (h1 : (c, u) ∈ l) (h2 : (c, u2) ∈ l) : u = u2 := by
  induction l with
  | nil => cases h1
  | cons p rest ih =>
    simp only [List.map_cons, List.nodup_cons] at h
    rcases List.mem_cons.mp h1 with he1 | he1 <;>
      rcases List.mem_cons.mp h2 with he2 | he2
    · exact congrArg Prod.snd (he1.trans he2.symm)
    · exact absurd (List.mem_map_of_mem Prod.fst he2) (by rw [← he1] at h; exact h.1)
    · exact absurd (List.mem_map_of_mem Prod.fst he1) (by rw [← he2] at h; exact h.1)
    · exact ih h.2 he1 he2

/-- The initial local state of `room_message_loop` (`handler.rs` lines
152-158) joined with the `RoomState` inserted by `start_room_handler`
(lines 54-65): empty connection map and index, empty mute set, the
admin and ban sets loaded from the database, default stats, the room
registered, no recorded message times, both debounce flags clear. -/
def initHandlerState (admins bans : List String) : HandlerState :=
  { connections := [], user_id_to_conn_id := [], muted_users := [],
    banned_users := bans, admin_users := admins,
    stats := { current_users := 0, peak_users := 0, total_joins := 0 },
    registered := true, user_last_message_time := [],
    pending_join_notify := false, join_notify_timer_active := false }

/-- Actor state together with the ghost record of every socket the
connection handler has opened against this room: the pair of the
connection id minted by `Uuid::new_v4()` and the fixed `user_id` of
that socket.  Every `InternalMessage` a socket produces carries its
own pair (`handle_socket`, lines 97, 128 and 137). -/
structure SysState where
  actor : HandlerState
  socketsSeen : List (Nat × String)
deriving DecidableEq

/-- The reachable states of one room's actor.  Transitions:

* `joinMsg` — a fresh socket registers: `handle_socket` mints a fresh
  connection id (`Uuid::new_v4()`; freshness of the 128-bit random id
  is the environment assumption recorded by the side condition) and
  sends `UserJoined` with the outbound sender attached;
* `socketMsg` — an already-opened socket forwards any later frame
  (client traffic or the final synthesized `UserLeft`), always with its
  own `(conn_id, user_id)` pair and `sender = None`;
* `controlMsg` — a control message from the management surface;
* `timer` — the join-notify one-shot timer fires;
* `unregister` — the management surface removes the room's `RoomState`
  from the registry.

The stats-query arm mutates nothing and is omitted.  Deliveries whose
handling would panic (`handle_message` returning `none`) have no
successor state. -/
inductive Reachable : SysState → Prop
  | init (admins bans : List String) : Reachable ⟨initHandlerState admins bans, []⟩
  | joinMsg (s : SysState) (conn_id : Nat) (user_id nickname : String) (room_id : Nat)
      (o : HandleOracle) (interval : Int) (st1 : HandlerState) (outs : List Output) :
      Reachable s →
      conn_id ∉ s.socketsSeen.map Prod.fst →
      handle_message
        { conn_id := conn_id, user_id := user_id, nickname := nickname,
          room_id := room_id, content := WsMessage.UserJoined user_id nickname,
          hasSender := true }
        o.welcomeOk o.now o.now2 o.joinInstant interval s.actor = some (st1, outs) →
      Reachable ⟨st1, (conn_id, user_id) :: s.socketsSeen⟩
  | socketMsg (s : SysState) (conn_id : Nat) (user_id nickname : String) (room_id : Nat)
      (content : WsMessage) (o : HandleOracle) (interval : Int)
      (st1 : HandlerState) (outs : List Output) :
      Reachable s →
      (conn_id, user_id) ∈ s.socketsSeen →
      handle_message
        { conn_id := conn_id, user_id := user_id, nickname := nickname,
          room_id := room_id, content := content, hasSender := false }
        o.welcomeOk o.now o.now2 o.joinInstant interval s.actor = some (st1, outs) →
      Reachable ⟨st1, s.socketsSeen⟩
  | controlMsg (s : SysState) (c : ControlMessage) :
      Reachable s → Reachable ⟨handle_control c s.actor, s.socketsSeen⟩
  | timer (s : SysState) :
      Reachable s → Reachable ⟨(join_notify_timer_fire s.actor).1, s.socketsSeen⟩
  | unregister (s : SysState) :
      Reachable s → Reachable ⟨{ s.actor with registered := false }, s.socketsSeen⟩

/-- The inductive invariant of the room actor (specification §3
"Invariants" and §8): distinct connection ids, a sound and complete
user-id index (every indexed connection exists; every connection is
indexed), index entries agreeing with the socket that minted them, the
ban set disjoint from the connected users, the current-users counter
equal to the cardinality of the connection map, and the peak bound. -/
structure SysInv (s : SysState) : Prop where
  connNodup : (s.actor.connections.map Prod.fst).Nodup
  socksNodup : (s.socketsSeen.map Prod.fst).Nodup
  idxSound : ∀ u c, alLookup s.actor.user_id_to_conn_id u = some c →
    c ∈ s.actor.connections.map Prod.fst
  idxComplete : ∀ c, c ∈ s.actor.connections.map Prod.fst →
    ∃ u, alLookup s.actor.user_id_to_conn_id u = some c
  idxSocks : ∀ u c, alLookup s.actor.user_id_to_conn_id u = some c →
    (c, u) ∈ s.socketsSeen
  banDisjoint : ∀ u, u ∈ s.actor.banned_users →
    alLookup s.actor.user_id_to_conn_id u = none
  currentCard : s.actor.stats.current_users = s.actor.connections.length
  peakGe : s.actor.stats.current_users ≤ s.actor.stats.peak_users

/-- Connected connection ids come from minted sockets. -/
theorem connSocks {s : SysState} (inv : SysInv s) :
    ∀ c, c ∈ s.actor.connections.map Prod.fst → c ∈ s.socketsSeen.map Prod.fst := by
  intro c hc
  obtain ⟨u, hu⟩ := inv.idxComplete c hc
  exact List.mem_map_of_mem Prod.fst (inv.idxSocks u c hu)

/-- Index entries are injective: two users cannot share a connection,
because both index entries would name the same minted socket. -/
theorem idxInjective {s : SysState} (inv : SysInv s) :
    ∀ u u2 c, alLookup s.actor.user_id_to_conn_id u = some c →
      alLookup s.actor.user_id_to_conn_id u2 = some c → u = u2 := by
  intro u u2 c h1 h2
  exact nodup_keys_pair_eq inv.socksNodup (inv.idxSocks u c h1) (inv.idxSocks u2 c h2)

/-- Recording one more minted socket with a fresh connection id keeps
the invariant (the actor state is untouched). -/
theorem sysInv_cons_socket {st : HandlerState} {socks : List (Nat × String)}
    (inv : SysInv ⟨st, socks⟩) {c : Nat} (u : String)
    (hfresh : c ∉ socks.map Prod.fst) : SysInv ⟨st, (c, u) :: socks⟩ := by
  refine ⟨inv.connNodup, ?_, inv.idxSound, inv.idxComplete, ?_, inv.banDisjoint,
    inv.currentCard, inv.peakGe⟩
  · simp only [List.map_cons, List.nodup_cons]
    exact ⟨hfresh, inv.socksNodup⟩
  · intro v cv hv
    exact List.mem_cons_of_mem _ (inv.idxSocks v cv hv)

/-- Evicting a live connection (displacement at join, `UserLeft`, or a
kick) preserves the invariant: the connection and its index entry go
away together and the current-users counter drops by one.  The
resulting ban set is a parameter so that the same lemma covers
`KickUser`, which bans the evicted user in the same step; every member
of the new ban set must be the evicted user or already disconnected. -/
theorem sysInv_evict_ban {st : HandlerState} {socks : List (Nat × String)}
    (inv : SysInv ⟨st, socks⟩) {user_id : String} {old_c : Nat} {info : ConnectionInfo}
    (hidx : alLookup st.user_id_to_conn_id user_id = some old_c)
    (hconn : alLookup st.connections old_c = some info)
    (banned2 : List String)
    (hb2 : ∀ v, v ∈ banned2 → v = user_id ∨ alLookup st.user_id_to_conn_id v = none) :
    SysInv ⟨{ st with
      connections := alErase st.connections old_c,
      user_id_to_conn_id := alErase st.user_id_to_conn_id user_id,
      banned_users := banned2,
      stats := { st.stats with current_users := st.stats.current_users - 1 } },
      socks⟩ := by
  have hlen : (alErase st.connections old_c).length + 1 = st.connections.length :=
    length_alErase_of_lookup inv.connNodup hconn
  refine ⟨?_, inv.socksNodup, ?_, ?_, ?_, ?_, ?_, ?_⟩
  · exact nodup_keys_alErase old_c inv.connNodup
  · intro u c hc
    rw [alLookup_alErase] at hc
    by_cases hu : u = user_id
    · simp [hu] at hc
    · rw [if_neg hu] at hc
      have hcne : c ≠ old_c := fun he =>
        hu (idxInjective inv u user_id old_c (he ▸ hc) hidx)
      exact mem_keys_alErase.mpr ⟨inv.idxSound u c hc, hcne⟩
  · intro c hc
    obtain ⟨hcm, hcne⟩ := mem_keys_alErase.mp hc
    obtain ⟨u, hu⟩ := inv.idxComplete c hcm
    have hune : u ≠ user_id := fun he => hcne (by
      rw [he] at hu; exact Option.some.injEq _ _ ▸ (hu.symm.trans hidx ▸ rfl))
    refine ⟨u, ?_⟩
    rw [alLookup_alErase, if_neg hune]
    exact hu
  · intro u c hc
    rw [alLookup_alErase] at hc
    by_cases hu : u = user_id
    · simp [hu] at hc
    · rw [if_neg hu] at hc
      exact inv.idxSocks u c hc
  · intro v hv
    rw [alLookup_alErase]
    rcases hb2 v hv with h1 | h1
    · simp [h1]
    · by_cases hu : v = user_id
      · simp [hu]
      · rw [if_neg hu]; exact h1
  · have hcc := inv.currentCard
    dsimp only at hcc ⊢
    omega
  · have hpk := inv.peakGe
    dsimp only at hpk ⊢
    omega

/-- Registering a brand-new connection for a not-currently-connected
user (the tail of the `UserJoined` arm after a successful
`WelcomeInfo` send) preserves the invariant. -/
theorem sysInv_register {st : HandlerState} {socks : List (Nat × String)}
    (inv : SysInv ⟨st, socks⟩) {conn_id : Nat} {user_id : String}
    (hidxu : alLookup st.user_id_to_conn_id user_id = none)
    (hcfresh : conn_id ∉ st.connections.map Prod.fst)
    (hmem : (conn_id, user_id) ∈ socks)
    (hban : user_id ∉ st.banned_users)
    (info : ConnectionInfo) (pjn jta : Bool) :
    SysInv ⟨{ st with
      connections := alInsert st.connections conn_id info,
      user_id_to_conn_id := alInsert st.user_id_to_conn_id user_id conn_id,
      stats := { current_users := st.stats.current_users + 1,
                 peak_users := if st.stats.current_users + 1 > st.stats.peak_users
                   then st.stats.current_users + 1 else st.stats.peak_users,
                 total_joins := st.stats.total_joins + 1 },
      pending_join_notify := pjn, join_notify_timer_active := jta }, socks⟩ := by
  refine ⟨?_, inv.socksNodup, ?_, ?_, ?_, ?_, ?_, ?_⟩
  · exact nodup_keys_alInsert conn_id info inv.connNodup
  · intro u c hc
    rw [alLookup_alInsert] at hc
    by_cases hu : u = user_id
    · rw [if_pos hu] at hc
      obtain rfl : conn_id = c := Option.some.inj hc
      exact mem_keys_alInsert.mpr (Or.inl rfl)
    · rw [if_neg hu] at hc
      have hm := inv.idxSound u c hc
      exact mem_keys_alInsert.mpr (Or.inr ⟨hm, fun he => hcfresh (he ▸ hm)⟩)
  · intro c hc
    rcases mem_keys_alInsert.mp hc with h1 | ⟨h1, h2⟩
    · refine ⟨user_id, ?_⟩
      rw [alLookup_alInsert, if_pos rfl, h1]
    · obtain ⟨u, hu⟩ := inv.idxComplete c h1
      have hune : u ≠ user_id := fun he => by rw [he, hidxu] at hu; exact Option.noConfusion hu
      refine ⟨u, ?_⟩
      rw [alLookup_alInsert, if_neg hune]
      exact hu
  · intro u c hc
    rw [alLookup_alInsert] at hc
    by_cases hu : u = user_id
    · rw [if_pos hu] at hc
      obtain rfl : conn_id = c := Option.some.inj hc
      rw [hu]
      exact hmem
    · rw [if_neg hu] at hc
      exact inv.idxSocks u c hc
  · intro v hv
    have hvne : v ≠ user_id := fun he => hban (he ▸ hv)
    rw [alLookup_alInsert, if_neg hvne]
    exact inv.banDisjoint v hv
  · have h1 := length_alInsert_of_not_mem info hcfresh
    have hcc := inv.currentCard
    dsimp only at hcc ⊢
    rw [h1]
    omega
  · dsimp only
    by_cases hp : st.stats.current_users + 1 > st.stats.peak_users
    · simp [hp]
    · simp only [if_neg hp]
      have hpk := inv.peakGe
      dsimp only at hpk
      omega

/-- `UserJoined` handling preserves the invariant, for every path:
banned rejection, failed welcome send, displacement of an existing
session, and plain registration. -/
theorem sysInv_join {st : HandlerState} {socks : List (Nat × String)}
    (inv : SysInv ⟨st, socks⟩)
    {conn_id : Nat} {user_id nickname : String} {room_id : Nat}
    {welcomeOk : Bool} {joinInstant : Nat}
    (hfresh : conn_id ∉ socks.map Prod.fst)
    {st1 : HandlerState} {outs : List Output}
    (h : handle_user_joined
      { conn_id := conn_id, user_id := user_id, nickname := nickname,
        room_id := room_id, content := WsMessage.UserJoined user_id nickname,
        hasSender := true } welcomeOk joinInstant st = some (st1, outs)) :
    SysInv ⟨st1, (conn_id, user_id) :: socks⟩ := by
  have hcfresh : conn_id ∉ st.connections.map Prod.fst :=
    fun hm => hfresh (connSocks inv conn_id hm)
  have invc : SysInv ⟨st, (conn_id, user_id) :: socks⟩ :=
    sysInv_cons_socket inv user_id hfresh
  rw [handle_user_joined] at h
  dsimp only at h
  rw [if_neg (by decide)] at h
  by_cases hban : user_id ∈ st.banned_users
  · rw [if_pos hban] at h
    simp only [Option.some.injEq, Prod.mk.injEq] at h
    obtain ⟨rfl, rfl⟩ := h
    exact invc
  · rw [if_neg hban] at h
    rcases hidx : alLookup st.user_id_to_conn_id user_id with _ | old_c
    · -- user not currently connected
      rw [hidx] at h
      dsimp only at h
      by_cases hwk : welcomeOk = false
      · rw [if_pos hwk] at h
        simp only [Option.some.injEq, Prod.mk.injEq] at h
        obtain ⟨rfl, rfl⟩ := h
        exact invc
      · rw [if_neg hwk] at h
        simp only [Option.some.injEq, Prod.mk.injEq] at h
        obtain ⟨rfl, rfl⟩ := h
        exact sysInv_register invc hidx hcfresh (List.mem_cons_self _ _) hban _ true true
    · -- displacement of the user's existing session
      rw [hidx] at h
      dsimp only at h
      rcases hconn : alLookup st.connections old_c with _ | info
      · exfalso
        have hm := inv.idxSound user_id old_c hidx
        rw [← alLookup_isSome_iff, hconn] at hm
        exact Bool.noConfusion hm
      · rw [hconn] at h
        dsimp only at h
        have inve := sysInv_evict_ban invc hidx hconn st.banned_users
          (fun v hv => Or.inr (inv.banDisjoint v hv))
        by_cases hwk : welcomeOk = false
        · rw [if_pos hwk] at h
          simp only [Option.some.injEq, Prod.mk.injEq] at h
          obtain ⟨rfl, rfl⟩ := h
          exact inve
        · rw [if_neg hwk] at h
          simp only [Option.some.injEq, Prod.mk.injEq] at h
          obtain ⟨rfl, rfl⟩ := h
          refine sysInv_register inve ?_ ?_ (List.mem_cons_self _ _) hban _ true true
          · dsimp only
            rw [alLookup_alErase, if_pos rfl]
          · dsimp only
            intro hm
            exact hcfresh (mem_keys_alErase.mp hm).1

theorem mem_insertSet {l : List String} {x v : String} :
    v ∈ insertSet l x ↔ v = x ∨ v ∈ l := by
  by_cases h : x ∈ l
  · simp only [insertSet, if_pos h]
    constructor
    · exact Or.inr
    · rintro (rfl | hv)
      · exact h
      · exact hv
  · simp [insertSet, if_neg h]

/-- An operation that leaves the connection map, the index and the
stats untouched, and whose resulting ban set contains only
disconnected users, preserves the invariant. -/
theorem sysInv_same_core {st st2 : HandlerState} {socks : List (Nat × String)}
    (inv : SysInv ⟨st, socks⟩)
    (hc : st2.connections = st.connections)
    (hi : st2.user_id_to_conn_id = st.user_id_to_conn_id)
    (hbd : ∀ v, v ∈ st2.banned_users → alLookup st.user_id_to_conn_id v = none)
    (hst : st2.stats = st.stats) : SysInv ⟨st2, socks⟩ := by
  refine ⟨?_, inv.socksNodup, ?_, ?_, ?_, ?_, ?_, ?_⟩
  · rw [hc]; exact inv.connNodup
  · intro u c hu; rw [hi] at hu; rw [hc]; exact inv.idxSound u c hu
  · intro c hcm; rw [hc] at hcm; rw [hi]; exact inv.idxComplete c hcm
  · intro u c hu; rw [hi] at hu; exact inv.idxSocks u c hu
  · intro v hv; rw [hi]; exact hbd v hv
  · rw [hst, hc]; exact inv.currentCard
  · rw [hst]; exact inv.peakGe

theorem handle_send_message_same (msg : InternalMessage) (content : String)
    (now now2 interval : Int) (st : HandlerState) :
    (handle_send_message msg content now now2 interval st).1.connections = st.connections ∧
    (handle_send_message msg content now now2 interval st).1.user_id_to_conn_id =
      st.user_id_to_conn_id ∧
    (handle_send_message msg content now now2 interval st).1.banned_users =
      st.banned_users ∧
    (handle_send_message msg content now now2 interval st).1.stats = st.stats := by
  unfold handle_send_message
  rcases hc : alLookup st.connections msg.conn_id with _ | ci
  · simp
  · simp only []
    by_cases hm : msg.user_id ∈ st.muted_users
    · simp [hm]
    · simp only [if_neg hm]
      by_cases hr : ci.is_admin = false ∧
          now - (alLookup st.user_last_message_time msg.user_id).getD 0 < interval
      · simp [hr]
      · simp [hr]

theorem handle_mute_user_same (msg : InternalMessage) (target : String)
    (st : HandlerState) :
    (handle_mute_user msg target st).1.connections = st.connections ∧
    (handle_mute_user msg target st).1.user_id_to_conn_id = st.user_id_to_conn_id ∧
    (handle_mute_user msg target st).1.banned_users = st.banned_users ∧
    (handle_mute_user msg target st).1.stats = st.stats := by
  unfold handle_mute_user
  rcases hc : alLookup st.connections msg.conn_id with _ | ci
  · simp
  · by_cases ha : ci.is_admin = false <;> simp [ha]

theorem handle_custom_event_same (msg : InternalMessage) (event_type payload : String)
    (st : HandlerState) :
    (handle_custom_event msg event_type payload st).1 = st := by
  unfold handle_custom_event
  rcases hc : alLookup st.connections msg.conn_id with _ | ci
  · simp
  · by_cases ha : ci.is_admin = false <;> simp [ha]

/-- `UserLeft` handling preserves the invariant, given that the
message's `(conn_id, user_id)` pair is the one its socket was opened
with (which is how `handle_socket` builds every message). -/
theorem sysInv_user_left {st : HandlerState} {socks : List (Nat × String)}
    (inv : SysInv ⟨st, socks⟩)
    {conn_id : Nat} {user_id nickname : String} {room_id : Nat} {content : WsMessage}
    {hs : Bool}
    (hpair : (conn_id, user_id) ∈ socks) :
    SysInv ⟨(handle_user_left
      { conn_id := conn_id, user_id := user_id, nickname := nickname,
        room_id := room_id, content := content, hasSender := hs } st).1, socks⟩ := by
  unfold handle_user_left
  rcases hconn : alLookup st.connections conn_id with _ | info
  · exact inv
  · have hcm : conn_id ∈ st.connections.map Prod.fst := by
      rw [← alLookup_isSome_iff, hconn]; rfl
    obtain ⟨u2, hu2⟩ := inv.idxComplete conn_id hcm
    have hu : u2 = user_id :=
      nodup_keys_pair_eq inv.socksNodup (inv.idxSocks u2 conn_id hu2) hpair
    rw [hu] at hu2
    exact sysInv_evict_ban inv hu2 hconn st.banned_users
      (fun v hv => Or.inr (inv.banDisjoint v hv))

/-- `KickUser` handling preserves the invariant: the target is banned
and its live connection (if any) evicted in the same step. -/
theorem sysInv_kick {st : HandlerState} {socks : List (Nat × String)}
    (inv : SysInv ⟨st, socks⟩) (msg : InternalMessage) (target : String) :
    SysInv ⟨(handle_kick_user msg target st).1, socks⟩ := by
  unfold handle_kick_user
  rcases hc : alLookup st.connections msg.conn_id with _ | ci
  · exact inv
  · dsimp only
    by_cases ha : ci.is_admin = false
    · rw [if_pos ha]; exact inv
    · rw [if_neg ha]
      rcases htc : alLookup st.user_id_to_conn_id target with _ | tc
      · refine sysInv_same_core inv rfl rfl ?_ rfl
        intro v hv
        rcases mem_insertSet.mp hv with rfl | hv2
        · exact htc
        · exact inv.banDisjoint v hv2
      · dsimp only
        rcases htcc : alLookup st.connections tc with _ | tinfo
        · exfalso
          have hm := inv.idxSound target tc htc
          rw [← alLookup_isSome_iff, htcc] at hm
          exact Bool.noConfusion hm
        · exact sysInv_evict_ban inv htc htcc (insertSet st.banned_users target)
            (fun v hv => (mem_insertSet.mp hv).imp (fun he => he) (inv.banDisjoint v))

theorem join_notify_timer_fire_same (st : HandlerState) :
    (join_notify_timer_fire st).1.connections = st.connections ∧
    (join_notify_timer_fire st).1.user_id_to_conn_id = st.user_id_to_conn_id ∧
    (join_notify_timer_fire st).1.banned_users = st.banned_users ∧
    (join_notify_timer_fire st).1.stats = st.stats := by
  unfold join_notify_timer_fire
  by_cases hr : st.registered = true
  · by_cases hp : st.pending_join_notify = true <;> simp [hr, hp]
  · simp [hr]

/-- Every reachable state of the room actor satisfies the invariant. -/
theorem reachable_sysInv (s : SysState) (hr : Reachable s) : SysInv s := by
  induction hr with
  | init admins bans =>
    refine ⟨?_, ?_, ?_, ?_, ?_, ?_, ?_, ?_⟩ <;> simp [initHandlerState, alLookup]
  | joinMsg s conn_id user_id nickname room_id o interval st1 outs hr hfresh hmsg ih =>
    rw [handle_message] at hmsg
    by_cases hreg : s.actor.registered = false
    · rw [if_pos hreg] at hmsg
      simp only [Option.some.injEq, Prod.mk.injEq] at hmsg
      obtain ⟨rfl, rfl⟩ := hmsg
      exact sysInv_cons_socket ih user_id hfresh
    · rw [if_neg hreg] at hmsg
      dsimp only at hmsg
      exact sysInv_join ih hfresh hmsg
  | socketMsg s conn_id user_id nickname room_id content o interval st1 outs hr hpair hmsg ih =>
    rw [handle_message] at hmsg
    by_cases hreg : s.actor.registered = false
    · rw [if_pos hreg] at hmsg
      simp only [Option.some.injEq, Prod.mk.injEq] at hmsg
      obtain ⟨rfl, rfl⟩ := hmsg
      exact ih
    · rw [if_neg hreg] at hmsg
      cases content with
      | UserJoined u2 n2 =>
        dsimp only at hmsg
        rw [handle_user_joined] at hmsg
        dsimp only at hmsg
        rw [if_pos rfl] at hmsg
        exact Option.noConfusion hmsg
      | UserLeft u2 n2 =>
        dsimp only at hmsg
        have h4 := congrArg Prod.fst (Option.some.inj hmsg)
        dsimp only at h4
        exact h4 ▸ sysInv_user_left ih hpair
      | SendMessage c =>
        dsimp only at hmsg
        have h4 := congrArg Prod.fst (Option.some.inj hmsg)
        dsimp only at h4
        have hsame := handle_send_message_same
          { conn_id := conn_id, user_id := user_id, nickname := nickname,
            room_id := room_id, content := WsMessage.SendMessage c, hasSender := false }
          c o.now o.now2 interval s.actor
        exact h4 ▸ sysInv_same_core ih hsame.1 hsame.2.1
          (fun v hv => ih.banDisjoint v (hsame.2.2.1 ▸ hv)) hsame.2.2.2
      | KickUser t =>
        dsimp only at hmsg
        have h4 := congrArg Prod.fst (Option.some.inj hmsg)
        dsimp only at h4
        exact h4 ▸ sysInv_kick ih
          { conn_id := conn_id, user_id := user_id, nickname := nickname,
            room_id := room_id, content := WsMessage.KickUser t, hasSender := false } t
      | MuteUser t =>
        dsimp only at hmsg
        have h4 := congrArg Prod.fst (Option.some.inj hmsg)
        dsimp only at h4
        have hsame := handle_mute_user_same
          { conn_id := conn_id, user_id := user_id, nickname := nickname,
            room_id := room_id, content := WsMessage.MuteUser t, hasSender := false }
          t s.actor
        exact h4 ▸ sysInv_same_core ih hsame.1 hsame.2.1
          (fun v hv => ih.banDisjoint v (hsame.2.2.1 ▸ hv)) hsame.2.2.2
      | CustomEvent et pl =>
        dsimp only at hmsg
        have h4 := congrArg Prod.fst (Option.some.inj hmsg)
        dsimp only at h4
        have hce : SysInv ⟨(handle_custom_event
            { conn_id := conn_id, user_id := user_id, nickname := nickname,
              room_id := room_id, content := WsMessage.CustomEvent et pl, hasSender := false }
            et pl s.actor).1, s.socketsSeen⟩ := by
          rw [handle_custom_event_same]
          exact ih
        exact h4 ▸ hce
      | Message a b c d =>
        dsimp only at hmsg
        simp only [Option.some.injEq, Prod.mk.injEq] at hmsg
        obtain ⟨rfl, rfl⟩ := hmsg
        exact ih
      | YouAreKicked =>
        dsimp only at hmsg
        simp only [Option.some.injEq, Prod.mk.injEq] at hmsg
        obtain ⟨rfl, rfl⟩ := hmsg
        exact ih
      | YouAreMuted =>
        dsimp only at hmsg
        simp only [Option.some.injEq, Prod.mk.injEq] at hmsg
        obtain ⟨rfl, rfl⟩ := hmsg
        exact ih
      | UserMuted a =>
        dsimp only at hmsg
        simp only [Option.some.injEq, Prod.mk.injEq] at hmsg
        obtain ⟨rfl, rfl⟩ := hmsg
        exact ih
      | Error a =>
        dsimp only at hmsg
        simp only [Option.some.injEq, Prod.mk.injEq] at hmsg
        obtain ⟨rfl, rfl⟩ := hmsg
        exact ih
      | System a =>
        dsimp only at hmsg
        simp only [Option.some.injEq, Prod.mk.injEq] at hmsg
        obtain ⟨rfl, rfl⟩ := hmsg
        exact ih
      | WelcomeInfo a b c =>
        dsimp only at hmsg
        simp only [Option.some.injEq, Prod.mk.injEq] at hmsg
        obtain ⟨rfl, rfl⟩ := hmsg
        exact ih
      | RoomStats a b =>
        dsimp only at hmsg
        simp only [Option.some.injEq, Prod.mk.injEq] at hmsg
        obtain ⟨rfl, rfl⟩ := hmsg
        exact ih
      | Ping a =>
        dsimp only at hmsg
        simp only [Option.some.injEq, Prod.mk.injEq] at hmsg
        obtain ⟨rfl, rfl⟩ := hmsg
        exact ih
      | Pong a =>
        dsimp only at hmsg
        simp only [Option.some.injEq, Prod.mk.injEq] at hmsg
        obtain ⟨rfl, rfl⟩ := hmsg
        exact ih
  | controlMsg s c hr ih =>
    cases c with
    | ResetAdmins na =>
      exact sysInv_same_core ih rfl rfl (fun v hv => ih.banDisjoint v hv) rfl
    | UnbanUser u =>
      refine sysInv_same_core ih rfl rfl ?_ rfl
      intro v hv
      have hv2 : v ∈ removeSet s.actor.banned_users u := hv
      rw [removeSet] at hv2
      exact ih.banDisjoint v (List.mem_filter.mp hv2).1
  | timer s hr ih =>
    have hsame := join_notify_timer_fire_same s.actor
    exact sysInv_same_core ih hsame.1 hsame.2.1
      (fun v hv => ih.banDisjoint v (hsame.2.2.1 ▸ hv)) hsame.2.2.2
  | unregister s hr ih =>
    exact sysInv_same_core ih rfl rfl (fun v hv => ih.banDisjoint v hv) rfl

/-- When the high-priority channel is closed and drained — the only
situation in which the `else` arm can run — the slice loop returns at
once through its `Disconnected` break, before ever executing
`normal_prio_rx.try_recv()`: it handles zero normal messages and
leaves the normal queue untouched. -/
theorem sliceLoop_high_disabled (orc : Nat → HandleOracle) (interval : Int)
    (high normal : Chan InternalMessage) (st : HandlerState)
    (h1 : high.queue = []) (h2 : high.closedFlag = true) :
    sliceLoop orc interval high normal st =
      { high := high, normal := normal, hs := st, count := 0, outs := [] } := by
  rcases high with ⟨hq, hcl⟩
  dsimp only at h1 h2
  subst h1
  subst h2
  rcases normal with ⟨nq, nc⟩
  cases nq <;> rfl

/-- No transition of the room actor's world removes anything from the
normal-priority queue: every step leaves it unchanged or appends to
it.  In particular the actor itself never dequeues a normal-priority
message. -/
theorem step_preserves_normal_queue (s s2 : LoopState) (h : Step s s2) :
    ∃ xs, s2.normal.queue = s.normal.queue ++ xs := by
  cases h with
  | highRecv m rest o interval hf hq => exact ⟨[], by simp⟩
  | ctrlRecv c rest hf hq => exact ⟨[], by simp⟩
  | statsRecv rest hf hq => exact ⟨[], by simp⟩
  | elseArm orc interval hf he =>
    have hd : chanDisabled s.high = true := by
      simp only [elseEnabled, Bool.and_eq_true] at he
      exact he.1.1
    simp only [chanDisabled, Bool.and_eq_true, List.isEmpty_iff] at hd
    have hs := sliceLoop_high_disabled orc interval s.high s.normal s.hs hd.1 hd.2
    refine ⟨[], ?_⟩
    simp only [elseBody, hs]
    split <;> split <;> simp
  | timerFire => exact ⟨[], by simp⟩
  | envHigh m hc => exact ⟨[], by simp⟩
  | envNormal m hc => exact ⟨[m], rfl⟩
  | envCtrl c hc => exact ⟨[], by simp⟩
  | envStats hc => exact ⟨[], by simp⟩
  | envCloseHigh => exact ⟨[], by simp⟩
  | envCloseNormal => exact ⟨[], by simp⟩
  | envCloseCtrl => exact ⟨[], by simp⟩
  | envCloseStats => exact ⟨[], by simp⟩
  | envUnregister => exact ⟨[], by simp⟩

/-- Broadcasting reaches every connection when nothing is excluded. -/
theorem broadcast_mem {connections : List (Nat × ConnectionInfo)} {c : Nat}
    (hc : c ∈ connections.map Prod.fst) (m : WsMessage) :
    Output.send c m ∈ broadcast connections m none := by
  obtain ⟨p, hp, hpc⟩ := List.mem_map.mp hc
  refine List.mem_filterMap.mpr ⟨p, hp, ?_⟩
  simp [hpc]

theorem handle_user_joined_peak (msg : InternalMessage) (welcomeOk : Bool) (ji : Nat)
    (st st1 : HandlerState) (outs : List Output)
    (h : handle_user_joined msg welcomeOk ji st = some (st1, outs)) :
    st.stats.peak_users ≤ st1.stats.peak_users := by
  rw [handle_user_joined] at h
  by_cases hs : msg.hasSender = false
  · rw [if_pos hs] at h
    exact Option.noConfusion h
  · rw [if_neg hs] at h
    by_cases hban : msg.user_id ∈ st.banned_users
    · rw [if_pos hban] at h
      simp only [Option.some.injEq, Prod.mk.injEq] at h
      obtain ⟨rfl, rfl⟩ := h
      exact le_refl _
    · rw [if_neg hban] at h
      rcases hidx : alLookup st.user_id_to_conn_id msg.user_id with _ | oldc
      · rw [hidx] at h
        dsimp only at h
        by_cases hwk : welcomeOk = false
        · rw [if_pos hwk] at h
          simp only [Option.some.injEq, Prod.mk.injEq] at h
          obtain ⟨rfl, rfl⟩ := h
          exact le_refl _
        · rw [if_neg hwk] at h
          simp only [Option.some.injEq, Prod.mk.injEq] at h
          obtain ⟨rfl, rfl⟩ := h
          dsimp only
          split <;> omega
      · rw [hidx] at h
        dsimp only at h
        rcases hconn : alLookup st.connections oldc with _ | info
        · rw [hconn] at h
          dsimp only at h
          by_cases hwk : welcomeOk = false
          · rw [if_pos hwk] at h
            simp only [Option.some.injEq, Prod.mk.injEq] at h
            obtain ⟨rfl, rfl⟩ := h
            exact le_refl _
          · rw [if_neg hwk] at h
            simp only [Option.some.injEq, Prod.mk.injEq] at h
            obtain ⟨rfl, rfl⟩ := h
            dsimp only
            split <;> omega
        · rw [hconn] at h
          dsimp only at h
          by_cases hwk : welcomeOk = false
          · rw [if_pos hwk] at h
            simp only [Option.some.injEq, Prod.mk.injEq] at h
            obtain ⟨rfl, rfl⟩ := h
            exact le_refl _
          · rw [if_neg hwk] at h
            simp only [Option.some.injEq, Prod.mk.injEq] at h
            obtain ⟨rfl, rfl⟩ := h
            dsimp only
            split <;> omega

theorem handle_user_left_peak (msg : InternalMessage) (st : HandlerState) :
    (handle_user_left msg st).1.stats.peak_users = st.stats.peak_users := by
  unfold handle_user_left
  rcases hc : alLookup st.connections msg.conn_id with _ | info <;> rfl

theorem handle_kick_user_peak (msg : InternalMessage) (target : String)
    (st : HandlerState) :
    (handle_kick_user msg target st).1.stats.peak_users = st.stats.peak_users := by
  unfold handle_kick_user
  rcases hc : alLookup st.connections msg.conn_id with _ | ci
  · rfl
  · dsimp only
    by_cases ha : ci.is_admin = false
    · rw [if_pos ha]
    · rw [if_neg ha]
      rcases htc : alLookup st.user_id_to_conn_id target with _ | tc
      · rfl
      · dsimp only
        rcases htcc : alLookup st.connections tc with _ | tinfo <;> rfl

/-- `handle_message` never decreases `stats.peak_users`. -/
theorem handle_message_peak_mono (msg : InternalMessage) (welcomeOk : Bool)
    (now now2 : Int) (ji : Nat) (interval : Int) (st st1 : HandlerState)
    (outs : List Output)
    (h : handle_message msg welcomeOk now now2 ji interval st = some (st1, outs)) :
    st.stats.peak_users ≤ st1.stats.peak_users := by
  rw [handle_message] at h
  by_cases hreg : st.registered = false
  · rw [if_pos hreg] at h
    simp only [Option.some.injEq, Prod.mk.injEq] at h
    obtain ⟨rfl, rfl⟩ := h
    exact le_refl _
  · rw [if_neg hreg] at h
    cases hc : msg.content with
    | UserJoined a b =>
      rw [hc] at h
      exact handle_user_joined_peak _ _ _ _ _ _ h
    | UserLeft a b =>
      rw [hc] at h
      have h4 := congrArg Prod.fst (Option.some.inj h)
      dsimp only at h4
      rw [← h4, handle_user_left_peak]
    | SendMessage c =>
      rw [hc] at h
      have h4 := congrArg Prod.fst (Option.some.inj h)
      dsimp only at h4
      rw [← h4, (handle_send_message_same msg c now now2 interval st).2.2.2]
    | KickUser t =>
      rw [hc] at h
      have h4 := congrArg Prod.fst (Option.some.inj h)
      dsimp only at h4
      rw [← h4, handle_kick_user_peak]
    | MuteUser t =>
      rw [hc] at h
      have h4 := congrArg Prod.fst (Option.some.inj h)
      dsimp only at h4
      rw [← h4, (handle_mute_user_same msg t st).2.2.2]
    | CustomEvent et pl =>
      rw [hc] at h
      have h4 := congrArg Prod.fst (Option.some.inj h)
      dsimp only at h4
      rw [← h4, handle_custom_event_same]
    | Message a b c d =>
      rw [hc] at h
      simp only [Option.some.injEq, Prod.mk.injEq] at h
      obtain ⟨rfl, rfl⟩ := h
      exact le_refl _
    | YouAreKicked =>
      rw [hc] at h
      simp only [Option.some.injEq, Prod.mk.injEq] at h
      obtain ⟨rfl, rfl⟩ := h
      exact le_refl _
    | YouAreMuted =>
      rw [hc] at h
      simp only [Option.some.injEq, Prod.mk.injEq] at h
      obtain ⟨rfl, rfl⟩ := h
      exact le_refl _
    | UserMuted a =>
      rw [hc] at h
      simp only [Option.some.injEq, Prod.mk.injEq] at h
      obtain ⟨rfl, rfl⟩ := h
      exact le_refl _
    | Error a =>
      rw [hc] at h
      simp only [Option.some.injEq, Prod.mk.injEq] at h
      obtain ⟨rfl, rfl⟩ := h
      exact le_refl _
    | System a =>
      rw [hc] at h
      simp only [Option.some.injEq, Prod.mk.injEq] at h
      obtain ⟨rfl, rfl⟩ := h
      exact le_refl _
    | WelcomeInfo a b c =>
      rw [hc] at h
      simp only [Option.some.injEq, Prod.mk.injEq] at h
      obtain ⟨rfl, rfl⟩ := h
      exact le_refl _
    | RoomStats a b =>
      rw [hc] at h
      simp only [Option.some.injEq, Prod.mk.injEq] at h
      obtain ⟨rfl, rfl⟩ := h
      exact le_refl _
    | Ping a =>
      rw [hc] at h
      simp only [Option.some.injEq, Prod.mk.injEq] at h
      obtain ⟨rfl, rfl⟩ := h
      exact le_refl _
    | Pong a =>
      rw [hc] at h
      simp only [Option.some.injEq, Prod.mk.injEq] at h
      obtain ⟨rfl, rfl⟩ := h
      exact le_refl _

/-- A normal-priority chat message used in concrete scenarios. -/
def demoChatMsg : InternalMessage :=
  { conn_id := 7, user_id := "dave", nickname := "Dave", room_id := 0,
    content := WsMessage.SendMessage "hello", hasSender := false }

/-- A fixed handling oracle for concrete runs. -/
def demoOracle : HandleOracle := { welcomeOk := true, now := 0, now2 := 0, joinInstant := 0 }

/-- The oracle stream used by concrete slice-loop runs. -/
def demoOrc : Nat → HandleOracle := fun _ => demoOracle

/-- C1: the two scheduling rules hold only because the scheduler never
dequeues a normal-priority message at all — every transition of the
loop leaves the normal queue unchanged or appends to it, and even the
slice loop (reachable only with the high-priority channel closed and
drained) exits through its `Disconnected` break with zero normal
messages processed, the queued message still in place.  The spec's
intended behaviour — normal messages processed in slices of at most
200 between high-priority checks — never happens. -/
theorem c1_normal_messages_never_processed :
    (∀ s s2 : LoopState, Step s s2 → ∃ xs, s2.normal.queue = s.normal.queue ++ xs) ∧
    sliceLoop demoOrc 5 { queue := [], closedFlag := true }
        { queue := [demoChatMsg], closedFlag := false } (initHandlerState [] []) =
      { high := { queue := [], closedFlag := true },
        normal := { queue := [demoChatMsg], closedFlag := false },
        hs := initHandlerState [] [], count := 0, outs := [] } :=
  ⟨step_preserves_normal_queue, sliceLoop_high_disabled demoOrc 5 _ _ _ rfl rfl⟩

/-- A state with an open, empty high-priority port and a pushable
normal port, used to witness C1. -/
def c1EnvState : LoopState :=
  { high := { queue := [], closedFlag := false },
    normal := { queue := [], closedFlag := false },
    ctrl := { queue := [], closedFlag := false },
    statsq := { queue := [], closedFlag := false },
    hs := initHandlerState [] [], finished := false }

/-- Witness for C1 at a concrete environment step. -/
theorem c1_witness :
    ∃ xs, ({ c1EnvState with
             normal := { c1EnvState.normal with
                         queue := c1EnvState.normal.queue ++ [demoChatMsg] } } :
               LoopState).normal.queue =
      c1EnvState.normal.queue ++ xs :=
  c1_normal_messages_never_processed.1 c1EnvState _
    (Step.envNormal c1EnvState demoChatMsg rfl)

/-- C2: while any of the high-priority, control or stats channels is
still open, no transition dequeues from the normal-priority queue; the
select's `else` arm (the only place the normal port is read) is
enabled exactly when all three of those channels are closed and
drained; and the connection handler forwards every non-`Ping` frame on
the normal port only. -/
theorem c2_normal_only_after_close :
    (∀ s s2 : LoopState, Step s s2 →
       (s.high.closedFlag = false ∨ s.ctrl.closedFlag = false ∨
        s.statsq.closedFlag = false) →
       ∃ xs, s2.normal.queue = s.normal.queue ++ xs) ∧
    (∀ s : LoopState, elseEnabled s = true →
       s.high.closedFlag = true ∧ s.high.queue = [] ∧ s.ctrl.closedFlag = true ∧
       s.ctrl.queue = [] ∧ s.statsq.closedFlag = true ∧ s.statsq.queue = []) ∧
    (∀ (conn_id : Nat) (user_id nickname : String) (room_id : Nat) (f : WsMessage)
       (p : Port) (m : InternalMessage),
       handle_socket_forward conn_id user_id nickname room_id f = some (p, m) →
       p = Port.normal) := by
  refine ⟨fun s s2 h _ => step_preserves_normal_queue s s2 h, ?_, ?_⟩
  · intro s he
    simp only [elseEnabled, chanDisabled, Bool.and_eq_true, List.isEmpty_iff] at he
    exact ⟨he.1.1.2, he.1.1.1, he.1.2.2, he.1.2.1, he.2.2, he.2.1⟩
  · intro conn_id user_id nickname room_id f p m h
    cases f <;>
      first
        | (injection h with h1
           injection h1 with h2 h3
           exact h2.symm)
        | injection h

/-- A state with an open high-priority port and a pending control
message, used to witness C2. -/
def c2DemoState : LoopState :=
  { high := { queue := [], closedFlag := false },
    normal := { queue := [demoChatMsg], closedFlag := false },
    ctrl := { queue := [ControlMessage.UnbanUser "x"], closedFlag := false },
    statsq := { queue := [], closedFlag := false },
    hs := initHandlerState [] [], finished := false }

/-- Witness for C2 at a concrete control-message step. -/
theorem c2_witness :
    ∃ xs, ({ c2DemoState with
             ctrl := { c2DemoState.ctrl with queue := [] },
             hs := handle_control (ControlMessage.UnbanUser "x") c2DemoState.hs } :
               LoopState).normal.queue = c2DemoState.normal.queue ++ xs :=
  c2_normal_only_after_close.1 c2DemoState _
    (Step.ctrlRecv c2DemoState (ControlMessage.UnbanUser "x") [] rfl rfl) (Or.inl rfl)

/-- A loop state whose three select-listed channels are closed and
drained while the normal port is still open with a queued message and
the connection map is empty. -/
def c3ExitState : LoopState :=
  { high := { queue := [], closedFlag := true },
    normal := { queue := [demoChatMsg], closedFlag := false },
    ctrl := { queue := [], closedFlag := true },
    statsq := { queue := [], closedFlag := true },
    hs := initHandlerState [] [], finished := false }

/-- C3 counterexample: the loop exits although the normal-priority
port is still open — and still holds an unserviced message — refuting
"terminates exactly when all four inbound ports are closed". -/
theorem c3_counterexample :
    elseEnabled c3ExitState = true ∧
    c3ExitState.normal.closedFlag = false ∧
    c3ExitState.normal.queue = [demoChatMsg] ∧
    (elseBody demoOrc 5 c3ExitState).1.finished = true ∧
    (elseBody demoOrc 5 c3ExitState).1.normal.queue = [demoChatMsg] ∧
    Step c3ExitState (elseBody demoOrc 5 c3ExitState).1 :=
  ⟨by decide, rfl, rfl, by decide, by decide,
   Step.elseArm c3ExitState demoOrc 5 rfl (by decide)⟩

/-- C3 (amended): the loop exits exactly when the high-priority,
control and stats ports are all closed and drained AND the connection
map is empty — the normal port's state is irrelevant, and if
connections remain when those ports close the loop keeps running; the
final `RoomStats` broadcast at exit ranges over the (necessarily
empty) connection map, producing no frames. -/
theorem c3_amended_termination :
    (∀ (orc : Nat → HandleOracle) (interval : Int) (s : LoopState),
       s.finished = false → elseEnabled s = true →
       ((elseBody orc interval s).1.finished = true ↔ s.hs.connections = [])) ∧
    (∀ s s2 : LoopState, s.finished = false → Step s s2 → s2.finished = true →
       elseEnabled s = true ∧ s.hs.connections = [] ∧
       broadcast s2.hs.connections
         (WsMessage.RoomStats s2.hs.stats.current_users s2.hs.stats.peak_users)
         none = []) := by
  constructor
  · intro orc interval s hf he
    have hd2 : chanDisabled s.high = true := by
      simp only [elseEnabled, Bool.and_eq_true] at he
      exact he.1.1
    simp only [chanDisabled, Bool.and_eq_true, List.isEmpty_iff] at hd2
    have hsl := sliceLoop_high_disabled orc interval s.high s.normal s.hs hd2.1 hd2.2
    simp only [elseBody, hsl]
    by_cases hp : (s.hs.registered && s.hs.pending_join_notify) = true
    · by_cases hce : s.hs.connections = [] <;>
        simp [hp, hce, List.isEmpty_iff, hf]
    · by_cases hce : s.hs.connections = [] <;>
        simp [hp, hce, List.isEmpty_iff, hf]
  · intro s s2 hf hstep hfin
    cases hstep with
    | highRecv m rest o interval h1 h2 => exact absurd hfin (by simp [hf])
    | ctrlRecv c rest h1 h2 => exact absurd hfin (by simp [hf])
    | statsRecv rest h1 h2 => exact absurd hfin (by simp [hf])
    | elseArm orc interval h1 h2 =>
      have hd2 : chanDisabled s.high = true := by
        simp only [elseEnabled, Bool.and_eq_true] at h2
        exact h2.1.1
      simp only [chanDisabled, Bool.and_eq_true, List.isEmpty_iff] at hd2
      have hsl := sliceLoop_high_disabled orc interval s.high s.normal s.hs hd2.1 hd2.2
      by_cases hce : s.hs.connections = []
      · refine ⟨h2, hce, ?_⟩
        simp only [elseBody, hsl]
        by_cases hp : (s.hs.registered && s.hs.pending_join_notify) = true <;>
          simp [hp, hce, List.isEmpty_iff, broadcast]
      · exfalso
        simp only [elseBody, hsl] at hfin
        by_cases hp : (s.hs.registered && s.hs.pending_join_notify) = true <;>
          simp [hp, hce, List.isEmpty_iff, hf] at hfin
    | timerFire => exact absurd hfin (by simp [hf])
    | envHigh m hc => exact absurd hfin (by simp [hf])
    | envNormal m hc => exact absurd hfin (by simp [hf])
    | envCtrl c hc => exact absurd hfin (by simp [hf])
    | envStats hc => exact absurd hfin (by simp [hf])
    | envCloseHigh => exact absurd hfin (by simp [hf])
    | envCloseNormal => exact absurd hfin (by simp [hf])
    | envCloseCtrl => exact absurd hfin (by simp [hf])
    | envCloseStats => exact absurd hfin (by simp [hf])
    | envUnregister => exact absurd hfin (by simp [hf])

/-- Witness for the amended C3 at a concrete state. -/
theorem c3_amended_witness :
    (elseBody demoOrc 5 c3ExitState).1.finished = true ↔
      c3ExitState.hs.connections = [] :=
  c3_amended_termination.1 demoOrc 5 c3ExitState rfl (by decide)

/-- C4: when the join-notify one-shot timer fires with the room still
registered and the pending flag set, the spawned task only clears the
pending and timer-active flags and performs no send at all — in
particular no `RoomStats` broadcast reaches the connections, contrary
to the specification's "on timer fire … broadcast the current
RoomStats". -/
theorem c4_timer_fire_clears_flags_without_broadcast (st : HandlerState)
    (hreg : st.registered = true) (hpend : st.pending_join_notify = true) :
    join_notify_timer_fire st =
      ({ st with pending_join_notify := false, join_notify_timer_active := false },
       ([] : List Output)) := by
  simp [join_notify_timer_fire, hreg, hpend]

/-- A registered room with the pending flag set as the timer fires. -/
def c4DemoState : HandlerState :=
  { initHandlerState [] [] with
      pending_join_notify := true, join_notify_timer_active := true }

/-- Witness for C4. -/
theorem c4_witness :
    join_notify_timer_fire c4DemoState =
      ({ c4DemoState with
         pending_join_notify := false,
         join_notify_timer_active := false }, ([] : List Output)) :=
  c4_timer_fire_clears_flags_without_broadcast c4DemoState rfl rfl

/-- The connection-map entries carried by a user id: connection ids
present in the map that the user's index entry names. -/
def userConns (st : HandlerState) (u : String) : List Nat :=
  (st.connections.map Prod.fst).filter
    (fun c => decide (alLookup st.user_id_to_conn_id u = some c))

theorem length_filter_lookup_le_one {l : List Nat} (h : l.Nodup) (x : Option Nat) :
    (l.filter (fun c => decide (x = some c))).length ≤ 1 := by
  induction l with
  | nil => simp
  | cons a rest ih =>
    simp only [List.nodup_cons] at h
    by_cases hx : x = some a
    · have hrest : rest.filter (fun c => decide (x = some c)) = [] := by
        rw [List.filter_eq_nil_iff]
        intro b hb
        simp only [decide_eq_true_eq]
        intro he
        rw [hx] at he
        exact h.1 ((Option.some.inj he) ▸ hb)
      simp [List.filter_cons, hx, hrest]
      intro b hb
      exact fun he => h.1 (he ▸ hb)
    · simp [List.filter_cons, hx, ih h.2]

/-- C5: in every reachable state each user id carries at most one
entry of the connection map, every connection is carried by some user
id; and a `UserJoined` for an already-connected user id first evicts
the old connection — `YouAreKicked` to it is the first output, it
leaves the map, `current_users` is net unchanged — and only then
registers the new connection under that user id. -/
theorem c5_at_most_one_connection_per_user (s : SysState) (hr : Reachable s) :
    (∀ u : String, (userConns s.actor u).length ≤ 1) ∧
    (∀ c : Nat, c ∈ s.actor.connections.map Prod.fst →
       ∃ u : String, alLookup s.actor.user_id_to_conn_id u = some c) ∧
    (∀ (conn_id : Nat) (user_id nickname : String) (room_id : Nat)
       (now now2 : Int) (ji : Nat) (interval : Int) (old_c : Nat)
       (oldInfo : ConnectionInfo) (st1 : HandlerState) (outs : List Output),
       s.actor.registered = true →
       user_id ∉ s.actor.banned_users →
       alLookup s.actor.user_id_to_conn_id user_id = some old_c →
       alLookup s.actor.connections old_c = some oldInfo →
       conn_id ∉ s.actor.connections.map Prod.fst →
       handle_message
         { conn_id := conn_id, user_id := user_id, nickname := nickname,
           room_id := room_id, content := WsMessage.UserJoined user_id nickname,
           hasSender := true } true now now2 ji interval s.actor = some (st1, outs) →
       outs.head? = some (Output.send old_c WsMessage.YouAreKicked) ∧
       old_c ∉ st1.connections.map Prod.fst ∧
       st1.stats.current_users = s.actor.stats.current_users ∧
       alLookup st1.user_id_to_conn_id user_id = some conn_id ∧
       conn_id ∈ st1.connections.map Prod.fst) := by
  have inv := reachable_sysInv s hr
  refine ⟨?_, inv.idxComplete, ?_⟩
  · intro u
    unfold userConns
    exact length_filter_lookup_le_one inv.connNodup _
  · intro conn_id user_id nickname room_id now now2 ji interval old_c oldInfo st1 outs
      hreg hban hidx hconn hcfresh hmsg
    rw [handle_message] at hmsg
    rw [if_neg (by simp [hreg])] at hmsg
    dsimp only at hmsg
    rw [handle_user_joined] at hmsg
    dsimp only at hmsg
    rw [if_neg (by decide)] at hmsg
    rw [if_neg hban] at hmsg
    rw [hidx] at hmsg
    dsimp only at hmsg
    rw [hconn] at hmsg
    dsimp only at hmsg
    rw [if_neg (by decide)] at hmsg
    simp only [Option.some.injEq, Prod.mk.injEq] at hmsg
    obtain ⟨rfl, rfl⟩ := hmsg
    refine ⟨rfl, ?_, ?_, ?_, ?_⟩
    · dsimp only
      intro hm
      rcases mem_keys_alInsert.mp hm with h1 | ⟨h1, h2⟩
      · exact hcfresh (h1 ▸ alLookup_some_mem_keys hconn)
      · exact (mem_keys_alErase.mp h1).2 rfl
    · dsimp only
      have h2 : old_c ∈ s.actor.connections.map Prod.fst := alLookup_some_mem_keys hconn
      have h3 : 0 < s.actor.connections.length := by
        cases hl : s.actor.connections with
        | nil => rw [hl] at h2; simp at h2
        | cons a r => simp [hl]
      have h4 := inv.currentCard
      omega
    · dsimp only
      rw [alLookup_alInsert, if_pos rfl]
    · dsimp only
      exact mem_keys_alInsert.mpr (Or.inl rfl)

/-- The actor state after the demo scenario's first join: room created
with admin `alice` and a database-loaded ban of `bob`; `alice` joins
on connection 1. -/
def demoSt1 : HandlerState :=
  { connections := [(1, { join_time := 0, is_admin := true, nickname := "Alice" })],
    user_id_to_conn_id := [("alice", 1)],
    muted_users := [], banned_users := ["bob"], admin_users := ["alice"],
    stats := { current_users := 1, peak_users := 1, total_joins := 1 },
    registered := true, user_last_message_time := [],
    pending_join_notify := true, join_notify_timer_active := true }

theorem demoReach1 : Reachable ⟨demoSt1, [(1, "alice")]⟩ :=
  Reachable.joinMsg ⟨initHandlerState ["alice"] ["bob"], []⟩ 1 "alice" "Alice" 0
    demoOracle 5 demoSt1
    [Output.send 1 (WsMessage.WelcomeInfo "alice" "Alice" false),
     Output.db (DbWriteCommand.UserJoined "alice" "Alice" 0),
     Output.spawnTimer]
    (Reachable.init ["alice"] ["bob"]) (by simp) rfl

/-- Witness for C5 in the demo scenario. -/
theorem c5_witness :
    (userConns demoSt1 "alice").length ≤ 1 ∧
    (∃ u, alLookup demoSt1.user_id_to_conn_id u = some 1) := by
  have h := c5_at_most_one_connection_per_user ⟨demoSt1, [(1, "alice")]⟩ demoReach1
  exact ⟨h.1 "alice", h.2.1 1 (by decide)⟩

/-- C6: in every reachable state the ban set is disjoint from the set
of connected users; a `UserJoined` from a banned user is answered with
the `Error` frame and mutates nothing; and an admin's `KickUser` both
adds the target to the ban set and removes the target's live
connection from the map and the index. -/
theorem c6_banned_never_connected (s : SysState) (hr : Reachable s) :
    (∀ u, u ∈ s.actor.banned_users →
       alLookup s.actor.user_id_to_conn_id u = none ∧ userConns s.actor u = []) ∧
    (∀ (conn_id : Nat) (user_id nickname : String) (room_id : Nat) (wOk : Bool)
       (now now2 : Int) (ji : Nat) (interval : Int),
       s.actor.registered = true → user_id ∈ s.actor.banned_users →
       handle_message
         { conn_id := conn_id, user_id := user_id, nickname := nickname,
           room_id := room_id, content := WsMessage.UserJoined user_id nickname,
           hasSender := true } wOk now now2 ji interval s.actor =
         some (s.actor, [Output.send conn_id (WsMessage.Error bannedJoinError)])) ∧
    (∀ (conn_id : Nat) (user_id nickname : String) (room_id : Nat)
       (wOk : Bool) (now now2 : Int) (ji : Nat) (interval : Int)
       (ci : ConnectionInfo) (target : String) (st1 : HandlerState)
       (outs : List Output),
       s.actor.registered = true →
       alLookup s.actor.connections conn_id = some ci →
       ci.is_admin = true →
       handle_message
         { conn_id := conn_id, user_id := user_id, nickname := nickname,
           room_id := room_id, content := WsMessage.KickUser target,
           hasSender := false } wOk now now2 ji interval s.actor = some (st1, outs) →
       target ∈ st1.banned_users ∧
       alLookup st1.user_id_to_conn_id target = none ∧
       (∀ c2, alLookup s.actor.user_id_to_conn_id target = some c2 →
          c2 ∉ st1.connections.map Prod.fst)) := by
  have inv := reachable_sysInv s hr
  refine ⟨?_, ?_, ?_⟩
  · intro u hu
    have h1 := inv.banDisjoint u hu
    exact ⟨h1, by simp [userConns, h1]⟩
  · intro conn_id user_id nickname room_id wOk now now2 ji interval hreg hban
    rw [handle_message]
    rw [if_neg (by simp [hreg])]
    dsimp only
    rw [handle_user_joined]
    dsimp only
    rw [if_neg (by decide)]
    rw [if_pos hban]
  · intro conn_id user_id nickname room_id wOk now now2 ji interval ci target st1
      outs hreg hconn hadm hmsg
    rw [handle_message] at hmsg
    rw [if_neg (by simp [hreg])] at hmsg
    dsimp only at hmsg
    rw [handle_kick_user] at hmsg
    dsimp only at hmsg
    rw [hconn] at hmsg
    dsimp only at hmsg
    rw [if_neg (by simp [hadm])] at hmsg
    rcases htc : alLookup s.actor.user_id_to_conn_id target with _ | tc
    · rw [htc] at hmsg
      dsimp only at hmsg
      simp only [Option.some.injEq, Prod.mk.injEq] at hmsg
      obtain ⟨rfl, rfl⟩ := hmsg
      refine ⟨mem_insertSet.mpr (Or.inl rfl), htc, ?_⟩
      intro c2 hc2
      exact Option.noConfusion hc2
    · rw [htc] at hmsg
      dsimp only at hmsg
      rcases htcc : alLookup s.actor.connections tc with _ | tinfo
      · exfalso
        have hm := inv.idxSound target tc htc
        rw [← alLookup_isSome_iff, htcc] at hm
        exact Bool.noConfusion hm
      · rw [htcc] at hmsg
        dsimp only at hmsg
        simp only [Option.some.injEq, Prod.mk.injEq] at hmsg
        obtain ⟨rfl, rfl⟩ := hmsg
        refine ⟨mem_insertSet.mpr (Or.inl rfl), ?_, ?_⟩
        · dsimp only
          rw [alLookup_alErase, if_pos rfl]
        · intro c2 hc2
          obtain rfl : tc = c2 := Option.some.inj hc2
          dsimp only
          intro hm
          exact (mem_keys_alErase.mp hm).2 rfl

/-- Witness for C6 in the demo scenario: `bob` is banned and not
connected, and his join attempt is rejected with the `Error` frame,
leaving the state unchanged. -/
theorem c6_witness :
    (alLookup demoSt1.user_id_to_conn_id "bob" = none ∧ userConns demoSt1 "bob" = []) ∧
    handle_message
      { conn_id := 2, user_id := "bob", nickname := "Bobby", room_id := 0,
        content := WsMessage.UserJoined "bob" "Bobby", hasSender := true }
      true 0 0 0 5 demoSt1 =
      some (demoSt1, [Output.send 2 (WsMessage.Error bannedJoinError)]) := by
  have h := c6_banned_never_connected ⟨demoSt1, [(1, "alice")]⟩ demoReach1
  exact ⟨h.1 "bob" (by decide), h.2.1 2 "bob" "Bobby" 0 true 0 0 0 5 rfl (by decide)⟩

/-- C7: in every reachable state `current_users` equals the
cardinality of the connection map and is bounded by `peak_users`;
`peak_users` never decreases across any message handling, any control
message, or the debounce timer. -/
theorem c7_stats_cardinality_and_peak (s : SysState) (hr : Reachable s) :
    (s.actor.stats.current_users = s.actor.connections.length ∧
     s.actor.stats.current_users ≤ s.actor.stats.peak_users) ∧
    (∀ (msg : InternalMessage) (wOk : Bool) (now now2 : Int) (ji : Nat)
       (interval : Int) (st1 : HandlerState) (outs : List Output),
       handle_message msg wOk now now2 ji interval s.actor = some (st1, outs) →
       s.actor.stats.peak_users ≤ st1.stats.peak_users) ∧
    (∀ c : ControlMessage,
       (handle_control c s.actor).stats.peak_users = s.actor.stats.peak_users) ∧
    (join_notify_timer_fire s.actor).1.stats.peak_users =
      s.actor.stats.peak_users := by
  have inv := reachable_sysInv s hr
  refine ⟨⟨inv.currentCard, inv.peakGe⟩, ?_, ?_, ?_⟩
  · intro msg wOk now now2 ji interval st1 outs h
    exact handle_message_peak_mono msg wOk now now2 ji interval s.actor st1 outs h
  · intro c
    cases c <;> rfl
  · rw [(join_notify_timer_fire_same s.actor).2.2.2]

/-- Witness for C7 in the demo scenario, including a second join
handled from the reached state. -/
theorem c7_witness :
    (demoSt1.stats.current_users = demoSt1.connections.length ∧
     demoSt1.stats.current_users ≤ demoSt1.stats.peak_users) ∧
    (handle_control (ControlMessage.UnbanUser "bob") demoSt1).stats.peak_users =
      demoSt1.stats.peak_users := by
  have h := c7_stats_cardinality_and_peak ⟨demoSt1, [(1, "alice")]⟩ demoReach1
  exact ⟨h.1, h.2.2.1 (ControlMessage.UnbanUser "bob")⟩

/-- C8: for a connected, non-muted sender, a non-admin message
arriving before `user_message_interval_secs` have elapsed since the
user's last recorded message yields exactly one `Error` frame naming
the remaining wait, with the state unchanged — no last-send update, no
persistence command, no broadcast; once the interval has elapsed (or
the sender is an admin) the last-send time is updated to the second
clock reading, a `ChatMessage` write command is emitted and the
message is broadcast to every connection, the sender included. -/
theorem c8_rate_limit_enforcement (st : HandlerState)
    (conn_id : Nat) (user_id nickname content : String) (room_id : Nat)
    (wOk : Bool) (now now2 : Int) (ji : Nat) (interval : Int)
    (ci : ConnectionInfo)
    (hreg : st.registered = true)
    (hconn : alLookup st.connections conn_id = some ci)
    (hmute : user_id ∉ st.muted_users) :
    (ci.is_admin = false →
     now - (alLookup st.user_last_message_time user_id).getD 0 < interval →
     handle_message
       { conn_id := conn_id, user_id := user_id, nickname := nickname,
         room_id := room_id, content := WsMessage.SendMessage content,
         hasSender := false } wOk now now2 ji interval st =
       some (st, [Output.send conn_id (WsMessage.Error (rateLimitError
         (interval - (now - (alLookup st.user_last_message_time user_id).getD 0))))])) ∧
    ((ci.is_admin = true ∨
      interval ≤ now - (alLookup st.user_last_message_time user_id).getD 0) →
     handle_message
       { conn_id := conn_id, user_id := user_id, nickname := nickname,
         room_id := room_id, content := WsMessage.SendMessage content,
         hasSender := false } wOk now now2 ji interval st =
       some ({ st with user_last_message_time :=
                 alInsert st.user_last_message_time user_id now2 },
             Output.db (DbWriteCommand.ChatMessage user_id nickname room_id content)
               :: broadcast st.connections
                    (WsMessage.Message user_id nickname content ci.is_admin) none) ∧
     Output.send conn_id (WsMessage.Message user_id nickname content ci.is_admin) ∈
       Output.db (DbWriteCommand.ChatMessage user_id nickname room_id content)
         :: broadcast st.connections
              (WsMessage.Message user_id nickname content ci.is_admin) none) := by
  constructor
  · intro hadm hlt
    rw [handle_message]
    rw [if_neg (by simp [hreg])]
    dsimp only
    rw [handle_send_message]
    dsimp only
    rw [hconn]
    dsimp only
    rw [if_neg hmute]
    rw [if_pos ⟨hadm, hlt⟩]
  · intro hok
    constructor
    · rw [handle_message]
      rw [if_neg (by simp [hreg])]
      dsimp only
      rw [handle_send_message]
      dsimp only
      rw [hconn]
      dsimp only
      rw [if_neg hmute]
      have hcond : ¬(ci.is_admin = false ∧
          now - (alLookup st.user_last_message_time user_id).getD 0 < interval) := by
        rintro ⟨h1, h2⟩
        rcases hok with h3 | h3
        · rw [h3] at h1
          exact Bool.noConfusion h1
        · omega
      rw [if_neg hcond]
    · exact List.mem_cons_of_mem _
        (broadcast_mem (alLookup_some_mem_keys hconn) _)

/-- A concrete room state for the C8 witness: non-admin `dave`
connected on connection 7 with a last message at time 0, interval 5. -/
def c8DemoState : HandlerState :=
  { connections := [(7, { join_time := 0, is_admin := false, nickname := "Dave" })],
    user_id_to_conn_id := [("dave", 7)],
    muted_users := [], banned_users := [], admin_users := [],
    stats := { current_users := 1, peak_users := 1, total_joins := 1 },
    registered := true, user_last_message_time := [("dave", 0)],
    pending_join_notify := false, join_notify_timer_active := false }

/-- Witness for C8: a message 1 second after the previous one is
rejected with "4 seconds remaining" and nothing changes; a message 6
seconds after is persisted and broadcast to the sender. -/
theorem c8_witness :
    handle_message
      { conn_id := 7, user_id := "dave", nickname := "Dave", room_id := 0,
        content := WsMessage.SendMessage "hi", hasSender := false }
      false 1 1 0 5 c8DemoState =
      some (c8DemoState, [Output.send 7 (WsMessage.Error (rateLimitError 4))]) ∧
    handle_message
      { conn_id := 7, user_id := "dave", nickname := "Dave", room_id := 0,
        content := WsMessage.SendMessage "hi", hasSender := false }
      false 6 6 0 5 c8DemoState =
      some ({ c8DemoState with
              user_last_message_time := alInsert c8DemoState.user_last_message_time "dave" 6 },
            Output.db (DbWriteCommand.ChatMessage "dave" "Dave" 0 "hi")
              :: broadcast c8DemoState.connections
                   (WsMessage.Message "dave" "Dave" "hi" false) none) := by
  have h1 := c8_rate_limit_enforcement c8DemoState 7 "dave" "Dave" "hi" 0 false 1 1 0 5
    { join_time := 0, is_admin := false, nickname := "Dave" } rfl rfl (by decide)
  have h2 := c8_rate_limit_enforcement c8DemoState 7 "dave" "Dave" "hi" 0 false 6 6 0 5
    { join_time := 0, is_admin := false, nickname := "Dave" } rfl rfl (by decide)
  exact ⟨h1.1 rfl (by decide), (h2.2 (Or.inr (by decide))).1⟩

/-- C10: when the `WelcomeInfo` send to the new connection fails
during a `UserJoined` that displaces an existing session, the handler
returns after the eviction: the old connection has been sent
`YouAreKicked`, removed from both maps and `current_users`
decremented, while the new connection is registered nowhere, no
`DbWriteCommand::UserJoined` is emitted and the join-notify flags are
untouched — the failed join still destroyed the user's previous
session. -/
theorem c10_failed_join_still_displaces (st : HandlerState)
    (conn_id : Nat) (user_id nickname : String) (room_id : Nat)
    (now now2 : Int) (ji : Nat) (interval : Int) (old_c : Nat)
    (oldInfo : ConnectionInfo)
    (hreg : st.registered = true)
    (hban : user_id ∉ st.banned_users)
    (hidx : alLookup st.user_id_to_conn_id user_id = some old_c)
    (hconn : alLookup st.connections old_c = some oldInfo) :
    handle_message
      { conn_id := conn_id, user_id := user_id, nickname := nickname,
        room_id := room_id, content := WsMessage.UserJoined user_id nickname,
        hasSender := true } false now now2 ji interval st =
      some ({ st with
              connections := alErase st.connections old_c,
              user_id_to_conn_id := alErase st.user_id_to_conn_id user_id,
              stats := { st.stats with
                         current_users := st.stats.current_users - 1 } },
            [Output.send old_c WsMessage.YouAreKicked,
             Output.send conn_id (WsMessage.WelcomeInfo user_id nickname
               (decide (user_id ∈ st.muted_users)))]) := by
  rw [handle_message]
  rw [if_neg (by simp [hreg])]
  dsimp only
  rw [handle_user_joined]
  dsimp only
  rw [if_neg (by decide)]
  rw [if_neg hban]
  rw [hidx]
  dsimp only
  rw [hconn]
  dsimp only
  rw [if_pos rfl]
  rfl

/-- A concrete state for the C10 witness: `bob` has a live session on
connection 3. -/
def c10DemoState : HandlerState :=
  { connections := [(3, { join_time := 0, is_admin := false, nickname := "Bob" })],
    user_id_to_conn_id := [("bob", 3)],
    muted_users := [], banned_users := [], admin_users := [],
    stats := { current_users := 1, peak_users := 1, total_joins := 1 },
    registered := true, user_last_message_time := [],
    pending_join_notify := false, join_notify_timer_active := false }

/-- Witness for C10: `bob` rejoins on connection 4, the welcome send
fails, and the old session is gone while nothing was registered. -/
theorem c10_witness :
    handle_message
      { conn_id := 4, user_id := "bob", nickname := "Bob", room_id := 0,
        content := WsMessage.UserJoined "bob" "Bob", hasSender := true }
      false 0 0 0 5 c10DemoState =
      some ({ c10DemoState with
              connections := alErase c10DemoState.connections 3,
              user_id_to_conn_id := alErase c10DemoState.user_id_to_conn_id "bob",
              stats := { c10DemoState.stats with
                         current_users := c10DemoState.stats.current_users - 1 } },
            [Output.send 3 WsMessage.YouAreKicked,
             Output.send 4 (WsMessage.WelcomeInfo "bob" "Bob"
               (decide ("bob" ∈ c10DemoState.muted_users)))]) :=
  c10_failed_join_still_displaces c10DemoState 4 "bob" "Bob" 0 0 0 0 5 3
    { join_time := 0, is_admin := false, nickname := "Bob" }
    rfl (by decide) rfl rfl

theorem countPosts_cons_post (l : List CbEvent) :
    countPosts (CbEvent.post :: l) = countPosts l + 1 := by
  simp [countPosts]

theorem countPosts_cons_sleep (d : Nat) (l : List CbEvent) :
    countPosts (CbEvent.sleepDelay d :: l) = countPosts l := by
  simp [countPosts]

theorem countSleeps_cons_post (l : List CbEvent) :
    countSleeps (CbEvent.post :: l) = countSleeps l := by
  simp [countSleeps]

theorem countSleeps_cons_sleep (d : Nat) (l : List CbEvent) :
    countSleeps (CbEvent.sleepDelay d :: l) = countSleeps l + 1 := by
  simp [countSleeps]

theorem send_callback_go_all_fail (attempts : Nat → HttpAttempt)
    (max_retries retry_delay : Nat)
    (hfail : ∀ i, i ≤ max_retries → attemptSuccess (attempts i) = false) :
    ∀ fuel retries, retries + fuel = max_retries + 1 →
    (send_callback_go attempts max_retries retry_delay fuel retries).1 = false ∧
    countPosts (send_callback_go attempts max_retries retry_delay fuel retries).2 = fuel ∧
    countSleeps (send_callback_go attempts max_retries retry_delay fuel retries).2 =
      fuel - 1 ∧
    (∀ d, CbEvent.sleepDelay d ∈
        (send_callback_go attempts max_retries retry_delay fuel retries).2 →
      d = retry_delay) := by
  intro fuel
  induction fuel with
  | zero =>
    intro retries hsum
    simp [send_callback_go, countPosts, countSleeps]
  | succ fuel1 ih =>
    intro retries hsum
    have hle : retries ≤ max_retries := by omega
    rw [send_callback_go]
    rw [if_pos hle]
    rw [hfail retries hle]
    simp only [Bool.false_eq_true, if_false]
    by_cases h2 : retries + 1 ≤ max_retries
    · rw [if_pos h2]
      have hfuel1 : 1 ≤ fuel1 := by omega
      obtain ⟨ha, hb, hc, hd⟩ := ih (retries + 1) (by omega)
      refine ⟨ha, ?_, ?_, ?_⟩
      · simp only [countPosts_cons_post, countPosts_cons_sleep, hb]
      · simp only [countSleeps_cons_post, countSleeps_cons_sleep, hc]
        omega
      · intro d hd2
        simp only [List.mem_cons] at hd2
        rcases hd2 with h3 | h3 | h3
        · exact absurd h3 (by simp)
        · exact CbEvent.sleepDelay.inj h3
        · exact hd d h3
    · rw [if_neg h2]
      have : fuel1 = 0 := by omega
      subst this
      refine ⟨rfl, by simp [countPosts], by simp [countSleeps], ?_⟩
      intro d hd2
      simp at hd2

theorem send_callback_go_first_success (attempts : Nat → HttpAttempt)
    (max_retries retry_delay k : Nat)
    (hk : k ≤ max_retries)
    (hsucc : attemptSuccess (attempts k) = true)
    (hfail : ∀ i, i < k → attemptSuccess (attempts i) = false) :
    ∀ fuel retries, retries + fuel = max_retries + 1 → retries ≤ k →
    (send_callback_go attempts max_retries retry_delay fuel retries).1 = true ∧
    countPosts (send_callback_go attempts max_retries retry_delay fuel retries).2 =
      k - retries + 1 ∧
    countSleeps (send_callback_go attempts max_retries retry_delay fuel retries).2 =
      k - retries ∧
    (∀ d, CbEvent.sleepDelay d ∈
        (send_callback_go attempts max_retries retry_delay fuel retries).2 →
      d = retry_delay) := by
  intro fuel
  induction fuel with
  | zero =>
    intro retries hsum hrk
    omega
  | succ fuel1 ih =>
    intro retries hsum hrk
    have hle : retries ≤ max_retries := by omega
    rw [send_callback_go]
    rw [if_pos hle]
    by_cases hr : retries = k
    · rw [hr, hsucc]
      rw [if_pos rfl]
      refine ⟨rfl, ?_, ?_, ?_⟩
      · simp [countPosts, Nat.sub_self]
      · simp [countSleeps, Nat.sub_self]
      · intro d hd2
        simp at hd2
    · have hlt : retries < k := by omega
      rw [hfail retries hlt]
      simp only [Bool.false_eq_true, if_false]
      have h2 : retries + 1 ≤ max_retries := by omega
      rw [if_pos h2]
      obtain ⟨ha, hb, hc, hd⟩ := ih (retries + 1) (by omega) (by omega)
      refine ⟨ha, ?_, ?_, ?_⟩
      · simp only [countPosts_cons_post, countPosts_cons_sleep, hb]
        omega
      · simp only [countSleeps_cons_post, countSleeps_cons_sleep, hc]
        omega
      · intro d hd2
        simp only [List.mem_cons] at hd2
        rcases hd2 with h3 | h3 | h3
        · exact absurd h3 (by simp)
        · exact CbEvent.sleepDelay.inj h3
        · exact hd d h3

/-- C9: the dispatcher's retry loop POSTs until the first 2xx
response, treating any non-2xx status or transport error as failure;
when all attempts fail it performs exactly `max_retries + 1` POSTs
(`3` when `max_retries = 2`) with exactly `max_retries` fixed delays
of `retry_delay` between consecutive POSTs and then drops the event;
when attempt `k` is the first 2xx it stops immediately after `k + 1`
POSTs with no further delay. -/
theorem c9_callback_retry_policy (attempts : Nat → HttpAttempt)
    (max_retries retry_delay : Nat) :
    ((∀ i, i ≤ max_retries → attemptSuccess (attempts i) = false) →
       (send_callback_with_retry attempts max_retries retry_delay).1 = false ∧
       countPosts (send_callback_with_retry attempts max_retries retry_delay).2 =
         max_retries + 1 ∧
       countSleeps (send_callback_with_retry attempts max_retries retry_delay).2 =
         max_retries ∧
       (∀ d, CbEvent.sleepDelay d ∈
           (send_callback_with_retry attempts max_retries retry_delay).2 →
         d = retry_delay)) ∧
    (∀ k, k ≤ max_retries → attemptSuccess (attempts k) = true →
       (∀ i, i < k → attemptSuccess (attempts i) = false) →
       (send_callback_with_retry attempts max_retries retry_delay).1 = true ∧
       countPosts (send_callback_with_retry attempts max_retries retry_delay).2 =
         k + 1 ∧
       countSleeps (send_callback_with_retry attempts max_retries retry_delay).2 = k ∧
       (∀ d, CbEvent.sleepDelay d ∈
           (send_callback_with_retry attempts max_retries retry_delay).2 →
         d = retry_delay)) := by
  constructor
  · intro hfail
    obtain ⟨ha, hb, hc, hd⟩ :=
      send_callback_go_all_fail attempts max_retries retry_delay hfail
        (max_retries + 1) 0 (by omega)
    refine ⟨ha, hb, ?_, hd⟩
    have hc2 : countSleeps (send_callback_with_retry attempts max_retries retry_delay).2 =
        max_retries + 1 - 1 := hc
    omega
  · intro k hk hsucc hfail
    obtain ⟨ha, hb, hc, hd⟩ :=
      send_callback_go_first_success attempts max_retries retry_delay k hk hsucc hfail
        (max_retries + 1) 0 (by omega) (by omega)
    have hb2 : countPosts (send_callback_with_retry attempts max_retries retry_delay).2 =
        k - 0 + 1 := hb
    have hc2 : countSleeps (send_callback_with_retry attempts max_retries retry_delay).2 =
        k - 0 := hc
    exact ⟨ha, by omega, by omega, hd⟩

/-- Witness for C9: with `max_retries = 2` and every attempt failing
the event is dropped after exactly 3 POSTs; with the second attempt
returning 2xx the loop stops after 2 POSTs. -/
theorem c9_witness :
    (send_callback_with_retry (fun _ => HttpAttempt.transportFailure) 2 0).1 = false ∧
    countPosts (send_callback_with_retry (fun _ => HttpAttempt.transportFailure) 2 0).2 =
      3 ∧
    (send_callback_with_retry
      (fun i => if i = 1 then HttpAttempt.response true else HttpAttempt.response false)
      2 0).1 = true ∧
    countPosts (send_callback_with_retry
      (fun i => if i = 1 then HttpAttempt.response true else HttpAttempt.response false)
      2 0).2 = 2 := by
  have h1 := (c9_callback_retry_policy (fun _ => HttpAttempt.transportFailure) 2 0).1
    (fun i _ => rfl)
  have h2 := (c9_callback_retry_policy
    (fun i => if i = 1 then HttpAttempt.response true else HttpAttempt.response false)
    2 0).2 1 (by omega) (by decide)
    (fun i hi => by
      have : i = 0 := by omega
      subst this
      decide)
  exact ⟨h1.1, h1.2.1, h2.1, h2.2.1⟩
